import Mathlib

/-!
# The network registry of `lib/networks.js`

A shallow embedding of the registry kept by `lib/networks.js`: the ordered
array `networks`, the index object `networkMaps`, and the three operations
`get`, `addNetwork` and `removeNetwork`, followed by the table of networks the
module registers when it is loaded.

JavaScript objects have an identity that `===` and `indexOf` compare. Every
object of the model therefore carries a number `ref` that stands for its
identity among the objects of its kind; `new Network()` and the byte sequence
made for a descriptor take their number from the counter `nextRef` of the
state.

The object `networkMaps` is a plain object used as a map from property names
to descriptors. A value used as a key is first turned into a string
(`toPropertyKey`), so the number `9000` and the string `'9000'` name the same
entry. Like every plain object it inherits the properties of
`Object.prototype`, which a read `networkMaps[key]` returns when there is no
own property `key`, and the key `__proto__` reads and replaces its prototype
instead of naming an entry. The state keeps the own properties and the
prototype apart.
-/

namespace Networks

set_option maxRecDepth 100000

deriving instance DecidableEq for Except

/-! ## Values -/

/-- A byte sequence object (a `Buffer`): its identity and its bytes. -/
structure Buffer where
  ref : Nat
  bytes : List Nat
  deriving DecidableEq

/-- An array of strings (the `dnsSeeds` of a network): its identity and its items. -/
structure StringArray where
  ref : Nat
  items : List String
  deriving DecidableEq

/-- The ten properties `addNetwork` defines on a descriptor, in the order of
the object literal handed to `JSUtil.defineImmutable`. The property `alias` is
written `alias_`, the plain word being reserved. -/
inductive Field where
  | name
  | alias_
  | pubkeyhash
  | privatekey
  | scripthash
  | xpubkey
  | xprivkey
  | networkMagic
  | port
  | dnsSeeds
  deriving DecidableEq

/-- The property name of a field. -/
def Field.key : Field → String
  | .name => "name"
  | .alias_ => "alias"
  | .pubkeyhash => "pubkeyhash"
  | .privatekey => "privatekey"
  | .scripthash => "scripthash"
  | .xpubkey => "xpubkey"
  | .xprivkey => "xprivkey"
  | .networkMagic => "networkMagic"
  | .port => "port"
  | .dnsSeeds => "dnsSeeds"

/-- The own enumerable properties of a descriptor in definition order: what
`_.each(network, ...)` walks through. -/
def Field.all : List Field :=
  [.name, .alias_, .pubkeyhash, .privatekey, .scripthash, .xpubkey, .xprivkey,
   .networkMagic, .port, .dnsSeeds]

/-- The field a property name names, if it names one. -/
def Field.ofKey (key : String) : Option Field :=
  Field.all.find? (fun f => f.key == key)

/-- A JavaScript number. An integer of magnitude below `2^53` is itself:
every such integer is a number, and JavaScript prints it as its decimal
numeral. `NaN` is apart, being `===` to nothing. Every other number (a
fraction, an integer from `2^53` on, an infinity) is given by the string
JavaScript prints it as, which tells two such numbers apart: `1e21`, the
integer `10^21`, is `other "1e+21"`. -/
inductive Num where
  | int (n : Int) (safe : n.natAbs < 2 ^ 53)
  | nan
  | other (text : String)
  deriving DecidableEq

/-- JavaScript `a === b` on numbers. -/
def Num.strictEq : Num → Num → Bool
  | .int a _, .int b _ => a == b
  | .other a, .other b => a == b
  | _, _ => false

/-- The string JavaScript prints a number as. -/
def Num.toString : Num → String
  | .int n _ => ToString.toString n
  | .nan => "NaN"
  | .other text => text

/-- The argument `data` of `addNetwork`, typed as its JSDoc block types it: the
names are strings, the version numbers and the port are numbers,
`networkMagic` is the integer handed to `integerAsBuffer`, `dnsSeeds` is an
array. A field the caller leaves out is `none` (JavaScript `undefined`). -/
structure Data where
  name : Option String
  alias_ : Option String
  pubkeyhash : Option Num
  privatekey : Option Num
  scripthash : Option Num
  xpubkey : Option Num
  xprivkey : Option Num
  networkMagic : Nat
  port : Option Num
  dnsSeeds : Option StringArray
  deriving DecidableEq

/-- A network descriptor: the object `new Network()` after
`JSUtil.defineImmutable` has defined its ten properties. `ref` is the identity
of the object. -/
structure Network where
  ref : Nat
  name : Option String
  alias_ : Option String
  pubkeyhash : Option Num
  privatekey : Option Num
  scripthash : Option Num
  xpubkey : Option Num
  xprivkey : Option Num
  networkMagic : Buffer
  port : Option Num
  dnsSeeds : Option StringArray
  deriving DecidableEq

/-- The objects that come with the language and with the declaration of
`Network`, which a read of `networkMaps` can return through the prototype
chain: the object `Object.prototype`, a native function by its name (`Object`,
`toString`, `valueOf`, ...), the function `Network` of line 15 and the function
`Network.prototype.toString` of lines 17 to 19. -/
inductive Builtin where
  | objectPrototype
  | native (name : String)
  | networkConstructor
  | networkToString
  deriving DecidableEq

/-- A JavaScript value as the registry meets it: what a caller may pass to
`get`, what `get` returns, and what a property of a descriptor holds. -/
inductive Value where
  | undefined
  | null
  | bool (b : Bool)
  | num (x : Num)
  | str (s : String)
  | buffer (b : Buffer)
  | array (a : StringArray)
  | network (n : Network)
  | builtin (b : Builtin)
  deriving DecidableEq

/-- JavaScript `a === b`: primitives are compared by value (`NaN` is equal to
nothing), objects by identity. -/
def strictEq : Value → Value → Bool
  | .undefined, .undefined => true
  | .null, .null => true
  | .bool a, .bool b => a == b
  | .num a, .num b => a.strictEq b
  | .str a, .str b => a == b
  | .buffer a, .buffer b => a.ref == b.ref
  | .array a, .array b => a.ref == b.ref
  | .network a, .network b => a.ref == b.ref
  | .builtin a, .builtin b => a == b
  | _, _ => false

/-- Lodash `_.isUndefined`. -/
def isUndefined : Value → Bool
  | .undefined => true
  | _ => false

/-- Lodash `_.isObject`: true of objects (byte sequences, arrays, descriptors,
functions), false of primitives, `null` included. -/
def isObject : Value → Bool
  | .buffer _ => true
  | .array _ => true
  | .network _ => true
  | .builtin _ => true
  | _ => false

/-- A string as a value; `undefined` when absent. -/
def ofString : Option String → Value
  | some s => .str s
  | none => .undefined

/-- A number as a value; `undefined` when absent. -/
def ofNumber : Option Num → Value
  | some x => .num x
  | none => .undefined

/-- An array as a value; `undefined` when absent. -/
def ofArray : Option StringArray → Value
  | some a => .array a
  | none => .undefined

/-- The property read `network[key]` for one of the ten properties. -/
def Network.prop (n : Network) : Field → Value
  | .name => ofString n.name
  | .alias_ => ofString n.alias_
  | .pubkeyhash => ofNumber n.pubkeyhash
  | .privatekey => ofNumber n.privatekey
  | .scripthash => ofNumber n.scripthash
  | .xpubkey => ofNumber n.xpubkey
  | .xprivkey => ofNumber n.xprivkey
  | .networkMagic => .buffer n.networkMagic
  | .port => ofNumber n.port
  | .dnsSeeds => ofArray n.dnsSeeds

/-- The values `_.each(network, function(value) ...)` passes to its callback. -/
def Network.values (n : Network) : List Value :=
  Field.all.map n.prop

/-! ## Strings of values -/

/-- A UTF-8 sequence that is open: the code point gathered so far, the number
of bytes still due, and the range the next byte has to lie in. -/
structure Utf8Open where
  codePoint : Nat
  due : Nat
  lower : Nat
  upper : Nat

/-- The character that stands for bytes that are no UTF-8. -/
def replacementChar : Char := Char.ofNat 0xFFFD

/-- A byte met while no sequence is open: an ASCII byte is its character, a
lead byte opens a sequence, any other byte is replaced. -/
def utf8Lead (b : Nat) : List Char × Option Utf8Open :=
  if b < 0x80 then ([Char.ofNat b], none)
  else if 0xC2 ≤ b ∧ b ≤ 0xDF then
    ([], some { codePoint := b % 32, due := 1, lower := 0x80, upper := 0xBF })
  else if 0xE0 ≤ b ∧ b ≤ 0xEF then
    ([], some
      { codePoint := b % 16
        due := 2
        lower := if b = 0xE0 then 0xA0 else 0x80
        upper := if b = 0xED then 0x9F else 0xBF })
  else if 0xF0 ≤ b ∧ b ≤ 0xF4 then
    ([], some
      { codePoint := b % 8
        due := 3
        lower := if b = 0xF0 then 0x90 else 0x80
        upper := if b = 0xF4 then 0x8F else 0xBF })
  else ([replacementChar], none)

/-- UTF-8 decoding of a byte sequence, as `Buffer.prototype.toString` does it
(the decoder of the Encoding Standard): a well-formed sequence gives its
character, and each maximal ill-formed part gives one U+FFFD. -/
def utf8Decode : Option Utf8Open → List Nat → List Char
  | none, [] => []
  | some _, [] => [replacementChar]
  | none, b :: rest => (utf8Lead b).1 ++ utf8Decode (utf8Lead b).2 rest
  | some st, b :: rest =>
    if st.lower ≤ b ∧ b ≤ st.upper then
      if st.due = 1 then Char.ofNat (st.codePoint * 64 + b % 64) :: utf8Decode none rest
      else
        utf8Decode
          (some
            { codePoint := st.codePoint * 64 + b % 64
              due := st.due - 1
              lower := 0x80
              upper := 0xBF })
          rest
    else replacementChar :: ((utf8Lead b).1 ++ utf8Decode (utf8Lead b).2 rest)

/-- The string a built-in object turns into: the source text of the two
functions of the module, the text the engine gives a native function, and
`[object Object]` for `Object.prototype`. -/
def Builtin.toString : Builtin → String
  | .objectPrototype => "[object Object]"
  | .native name => "function " ++ name ++ "() \x7b [native code] \x7d"
  | .networkConstructor => "function Network() \x7b\x7d"
  | .networkToString => "function toString() \x7b\n  return this.name;\n\x7d"

/-- The property name a value turns into when it is used as a key of an
object, as in `networkMaps[value]`: numbers and strings alike become strings.
A descriptor turns into its name (`Network.prototype.toString`), an array
into its items joined by commas, a byte sequence into the text its bytes
encode. -/
def toPropertyKey : Value → String
  | .undefined => "undefined"
  | .null => "null"
  | .bool true => "true"
  | .bool false => "false"
  | .num x => x.toString
  | .str s => s
  | .buffer b => String.mk (utf8Decode none b.bytes)
  | .array a => String.intercalate "," a.items
  | .network n =>
    match n.name with
    | some s => s
    | none => "undefined"
  | .builtin b => b.toString

/-! ## The registry state -/

/-- The module state: the array `networks`; the own properties of the object
`networkMaps` (property name to descriptor); the prototype of `networkMaps`,
`none` as long as it is `Object.prototype` and `some p` once the assignment
`networkMaps['__proto__'] = p` has replaced it; and the counter that numbers
the objects `addNetwork` creates. -/
structure State where
  networks : List Network
  networkMaps : String → Option Network
  prototype : Option Network
  nextRef : Nat

/-- The state before any network is registered: `var networks = []` and an
empty object `networkMaps`. -/
def State.empty : State :=
  { networks := [], networkMaps := fun _ => none, prototype := none, nextRef := 0 }

/-- The second argument of `get`: left out, one field name, or an array of
field names. -/
inductive Keys where
  | absent
  | single (key : Field)
  | list (keys : List Field)
  deriving DecidableEq

/-- The test `if (keys)` followed by `if (!_.isArray(keys)) keys = [keys]`: the
array to scan with, or `none` when `keys` was left out. A field name is a
non-empty string and an array is an object, so both are truthy. -/
def Keys.toArray : Keys → Option (List Field)
  | .absent => none
  | .single key => some [key]
  | .list keys => some keys

/-- `networks.indexOf(arg)`: the first index whose element is `=== arg`, or
`-1`. -/
def indexOf : List Network → Value → Int
  | [], _ => -1
  | n :: rest, arg =>
    if strictEq (.network n) arg then 0
    else
      let i := indexOf rest arg
      if i = -1 then -1 else i + 1

/-- The bitwise complement `~i` of a (small) integer. -/
def bitNot (i : Int) : Int := -i - 1

/-- The names of the properties of `Object.prototype` other than `__proto__`. -/
def objectPrototypeKeys : List String :=
  ["constructor", "toString", "toLocaleString", "valueOf", "hasOwnProperty",
   "isPrototypeOf", "propertyIsEnumerable", "__defineGetter__", "__defineSetter__",
   "__lookupGetter__", "__lookupSetter__"]

/-- The read `Object.prototype[key]` for a key other than `__proto__`: the
function `Object` under `constructor`, a native function under the other
names, `undefined` under any other key. -/
def objectPrototypeGet (key : String) : Value :=
  if key = "constructor" then .builtin (.native "Object")
  else if key ∈ objectPrototypeKeys then .builtin (.native key)
  else .undefined

/-- The read `p[key]` on a descriptor `p`, for a key other than `__proto__`: an
own property if the key names one of the ten, else what `Network.prototype`
has (`toString`, `constructor`), else what `Object.prototype` has. -/
def networkGet (p : Network) (key : String) : Value :=
  match Field.ofKey key with
  | some f => p.prop f
  | none =>
    if key = "toString" then .builtin .networkToString
    else if key = "constructor" then .builtin .networkConstructor
    else objectPrototypeGet key

/-- What `networkMaps` inherits under a key other than `__proto__`: the value a
read returns when there is no own property of that name. -/
def inherited (s : State) (key : String) : Value :=
  match s.prototype with
  | some p => networkGet p key
  | none => objectPrototypeGet key

/-- The read `networkMaps[key]`. The key `__proto__` reads the prototype;
otherwise an own property wins over an inherited one. -/
def readKey (s : State) (key : String) : Value :=
  if key = "__proto__" then
    match s.prototype with
    | some p => .network p
    | none => .builtin .objectPrototype
  else
    match s.networkMaps key with
    | some n => .network n
    | none => inherited s key

/-- The function `get(arg, keys)` of `lib/networks.js`. -/
def get (s : State) (arg : Value) (keys : Keys) : Value :=
  if bitNot (indexOf s.networks arg) ≠ 0 then arg
  else
    match keys.toArray with
    | some ks =>
      match s.networks.find? (fun n => ks.any (fun key => strictEq (n.prop key) arg)) with
      | some n => .network n
      | none => .undefined
    | none => readKey s (toPropertyKey arg)

/-- Modelled from the spec: `BufferUtil.integerAsBuffer` lives in
`lib/util/buffer`, which is not among the sources. The spec has it encode a
32-bit unsigned integer as 4 bytes, most significant first; `ref` is the
identity of the new byte sequence. -/
def integerAsBuffer (ref : Nat) (n : Nat) : Buffer :=
  { ref := ref, bytes := [n / 2 ^ 24 % 256, n / 2 ^ 16 % 256, n / 2 ^ 8 % 256, n % 256] }

/-- The error a strict-mode assignment raises when the property it would
create is inherited as a read-only property. -/
inductive TypeError where
  | readOnly (key : String)
  deriving DecidableEq

/-- The own properties after `networkMaps[key] = network` made or replaced the
own property `key`. -/
def setKey (maps : String → Option Network) (key : String) (network : Network) :
    String → Option Network :=
  fun k => if k = key then some network else maps k

/-- The assignment `networkMaps[key] = network` of line 86, in strict mode.
Under the key `__proto__` it replaces the prototype of `networkMaps`. An own
property is overwritten. Without an own property the assignment makes one,
unless the key is inherited as one of the ten properties of a descriptor,
which are read-only: then it raises a `TypeError`. That the ten properties
are read-only is modelled from the spec, which has a descriptor immutable
once it is constructed: `JSUtil.defineImmutable`, which makes them, lives in
`lib/util/js`, which is not among the sources. -/
def writeKey (s : State) (key : String) (network : Network) : Except TypeError State :=
  if key = "__proto__" then .ok { s with prototype := some network }
  else if (s.networkMaps key).isSome then
    .ok { s with networkMaps := setKey s.networkMaps key network }
  else
    match s.prototype with
    | some _ =>
      if (Field.ofKey key).isSome then .error (.readOnly key)
      else .ok { s with networkMaps := setKey s.networkMaps key network }
    | none => .ok { s with networkMaps := setKey s.networkMaps key network }

/-- The value is one `addNetwork` indexes: the test of its callback,
`!_.isUndefined(value) && !_.isObject(value)`. -/
def isScalar (value : Value) : Bool :=
  !isUndefined value && !isObject value

/-- The loop `_.each(network, function(value) ...)` of `addNetwork` over the
values still to visit: a value that is neither `undefined` nor an object is
assigned as a key of `networkMaps`. An assignment that raises ends the loop;
the assignments made before it stay. -/
def eachValue (network : Network) : List Value → State → Except TypeError Unit × State
  | [], s => (.ok (), s)
  | value :: rest, s =>
    if !isUndefined value && !isObject value then
      match writeKey s (toPropertyKey value) network with
      | .ok s2 => eachValue network rest s2
      | .error e => (.error e, s)
    else eachValue network rest s

/-- The object `network` of `addNetwork` once `JSUtil.defineImmutable` has
defined its properties (lines 69 to 82). -/
def newNetwork (s : State) (data : Data) : Network :=
  { ref := s.nextRef
    name := data.name
    alias_ := data.alias_
    pubkeyhash := data.pubkeyhash
    privatekey := data.privatekey
    scripthash := data.scripthash
    xpubkey := data.xpubkey
    xprivkey := data.xprivkey
    networkMagic := integerAsBuffer s.nextRef data.networkMagic
    port := data.port
    dnsSeeds := data.dnsSeeds }

/-- The function `addNetwork(data)`: how the call ends, with the descriptor it
returns or the error it raises, and the state it leaves. When the loop over the
values raises, `networks.push(network)` is not reached. -/
def addNetwork (s : State) (data : Data) : Except TypeError Network × State :=
  let network := newNetwork s data
  match eachValue network network.values { s with nextRef := s.nextRef + 1 } with
  | (.ok _, s2) => (.ok network, { s2 with networks := s2.networks ++ [network] })
  | (.error e, s2) => (.error e, s2)

/-- The first loop of `removeNetwork`:
`for (i = 0; i < networks.length; i++) if (networks[i] === network) networks.splice(i, 1)`.
After a `splice` the element that followed moves to index `i`, and `i++` steps
over it without a test. -/
def spliceLoop (network : Network) : List Network → List Network
  | [] => []
  | x :: rest =>
    if strictEq (.network x) (.network network) then
      match rest with
      | [] => []
      | y :: rest2 => y :: spliceLoop network rest2
    else x :: spliceLoop network rest

/-- The second loop of `removeNetwork`: every key of `networkMaps` whose value
is `=== network` is deleted. The loop `for (key in networkMaps)` also visits
inherited keys; under them `networkMaps[key]` is a field value or a function,
never a descriptor, and `delete` takes away own properties only, so the own
properties that lead to `network` are what goes. -/
def deleteKeys (network : Network) (maps : String → Option Network) :
    String → Option Network :=
  fun k =>
    match maps k with
    | some n => if strictEq (.network n) (.network network) then none else some n
    | none => none

/-- The function `removeNetwork(network)`. The prototype of `networkMaps` is no
own property and stays. -/
def removeNetwork (s : State) (network : Network) : State :=
  { networks := spliceLoop network s.networks
    networkMaps := deleteKeys network s.networkMaps
    prototype := s.prototype
    nextRef := s.nextRef }

/-! ## The networks registered when the module is loaded -/

/-- The number an integer numeral of the module denotes: every numeral of the
table is below `2^53`. -/
def numeral (n : Nat) (safe : (n : Int).natAbs < 2 ^ 53) : Option Num :=
  some (.int n safe)

/-- The object literal of the call `addNetwork` that registers `livenet`. -/
def livenetData : Data :=
  { name := some "livenet"
    alias_ := some "mainnet"
    pubkeyhash := numeral 0x00 (by decide)
    privatekey := numeral 0x80 (by decide)
    scripthash := numeral 0x05 (by decide)
    xpubkey := numeral 0x0488b21e (by decide)
    xprivkey := numeral 0x0488ade4 (by decide)
    networkMagic := 0xf9beb4d9
    port := numeral 8333 (by decide)
    dnsSeeds := some
      { ref := 0
        items := ["seed.bitcoin.sipa.be", "dnsseed.bluematt.me", "dnsseed.bitcoin.dashjr.org", "seed.bitcoinstats.com", "seed.bitnodes.io", "bitseed.xf2.org"] } }

/-- The object literal of the call `addNetwork` that registers `testnet`. -/
def testnetData : Data :=
  { name := some "testnet"
    alias_ := some "testnet"
    pubkeyhash := numeral 0x6f (by decide)
    privatekey := numeral 0xef (by decide)
    scripthash := numeral 0xc4 (by decide)
    xpubkey := numeral 0x043587cf (by decide)
    xprivkey := numeral 0x04358394 (by decide)
    networkMagic := 0x0b110907
    port := numeral 18333 (by decide)
    dnsSeeds := some
      { ref := 1
        items := ["testnet-seed.bitcoin.petertodd.org", "testnet-seed.bluematt.me", "testnet-seed.alexykot.me", "testnet-seed.bitcoin.schildbach.de"] } }

/-- The object literal of the call `addNetwork` that registers `dogecoin`. -/
def dogecoinData : Data :=
  { name := some "dogecoin"
    alias_ := some "dogecoin"
    pubkeyhash := numeral 0x1e (by decide)
    privatekey := numeral 0x9e (by decide)
    scripthash := numeral 0x22 (by decide)
    xpubkey := numeral 0x0488c42e (by decide)
    xprivkey := numeral 0x0488e1f4 (by decide)
    networkMagic := 0xc0c0c0c0
    port := numeral 22556 (by decide)
    dnsSeeds := some
      { ref := 2
        items := ["seed.dogecoin.com", "seed.multidoge.org", "seed2.multidoge.org", "seed.doger.dogecoin.com"] } }

/-- The object literal of the call `addNetwork` that registers `litecoin`. -/
def litecoinData : Data :=
  { name := some "litecoin"
    alias_ := some "litecoin"
    pubkeyhash := numeral 0x30 (by decide)
    privatekey := numeral 0xb0 (by decide)
    scripthash := numeral 0x05 (by decide)
    xpubkey := numeral 0x0488b21e (by decide)
    xprivkey := numeral 0x0488ade4 (by decide)
    networkMagic := 0xfbc0b6db
    port := numeral 9333 (by decide)
    dnsSeeds := some
      { ref := 3
        items := ["dnsseed.litecointools.com", "dnsseed.litecoinpool.org", "dnsseed.ltc.xurious.com", "dnsseed.koin-project.com", "dnsseed.weminemnc.com"] } }

/-- The object literal of the call `addNetwork` that registers `dash`. -/
def dashData : Data :=
  { name := some "dash"
    alias_ := some "dash"
    pubkeyhash := numeral 0x4c (by decide)
    privatekey := numeral 0xcc (by decide)
    scripthash := numeral 0x16 (by decide)
    xpubkey := numeral 0x02fe52f8 (by decide)
    xprivkey := numeral 0x02fe52cc (by decide)
    networkMagic := 0xbf0c6bbd
    port := numeral 9999 (by decide)
    dnsSeeds := some
      { ref := 4
        items := ["dnsseed.darkcoin.io", "dnsseed.darkcoin.qa", "dnsseed.ltc.xurious.com", "dnsseed.masternode.io", "dnsseed.dashpay.io"] } }

/-- The object literal of the call `addNetwork` that registers `peercoin`. -/
def peercoinData : Data :=
  { name := some "peercoin"
    alias_ := some "peercoin"
    pubkeyhash := numeral 0x37 (by decide)
    privatekey := numeral 0xb7 (by decide)
    scripthash := numeral 0x05 (by decide)
    xpubkey := numeral 0x0488b21e (by decide)
    xprivkey := numeral 0x0488ade4 (by decide)
    networkMagic := 0xbf0c6bbd
    port := numeral 9901 (by decide)
    dnsSeeds := some
      { ref := 5
        items := ["seed.ppcoin.net", "seedppc.ppcoin.net", "ppcseed.ns.7server.net", "dnsseed.ppc.altcointech.net", "seed.diandianbi.org", "tnseed.ppcoin.net", "tnseedppc.ppcoin.net"] } }

/-- The object literal of the call `addNetwork` that registers `namecoin`. -/
def namecoinData : Data :=
  { name := some "namecoin"
    alias_ := some "namecoin"
    pubkeyhash := numeral 0x34 (by decide)
    privatekey := numeral 0xb4 (by decide)
    scripthash := numeral 0x13 (by decide)
    xpubkey := numeral 0x0488b21e (by decide)
    xprivkey := numeral 0x0488ade4 (by decide)
    networkMagic := 0xf9beb4fe
    port := numeral 8334 (by decide)
    dnsSeeds := some
      { ref := 6
        items := ["namecoindnsseed.digi-masters.com", "namecoindnsseed.digi-masters.uk", "seed.namecoin.domob.eu", "nmc.seed.quisquis.de", "dnsseed.namecoin.webbtc.com"] } }

/-- The object literal of the call `addNetwork` that registers `digibyte`. -/
def digibyteData : Data :=
  { name := some "digibyte"
    alias_ := some "digibyte"
    pubkeyhash := numeral 0x1e (by decide)
    privatekey := numeral 0x80 (by decide)
    scripthash := numeral 0x05 (by decide)
    xpubkey := numeral 0x0488b21e (by decide)
    xprivkey := numeral 0x0488ade4 (by decide)
    networkMagic := 0xfac3b6da
    port := numeral 12024 (by decide)
    dnsSeeds := some
      { ref := 7
        items := ["74.208.230.160", "216.250.125.121", "195.130.216.149", "96.18.212.86", "188.226.239.21", "54.201.183.106", "213.81.142.62"] } }

/-- The object literal of the call `addNetwork` that registers `blackcoin`. -/
def blackcoinData : Data :=
  { name := some "blackcoin"
    alias_ := some "blackcoin"
    pubkeyhash := numeral 0x19 (by decide)
    privatekey := numeral 0x99 (by decide)
    scripthash := numeral 0x85 (by decide)
    xpubkey := numeral 0x0488b21e (by decide)
    xprivkey := numeral 0x0488ade4 (by decide)
    networkMagic := 0x70352205
    port := numeral 15714 (by decide)
    dnsSeeds := some
      { ref := 8
        items := ["seed.blackcoin.co", "bcseed.syllabear.us.to"] } }

/-- The object literal of the call `addNetwork` that registers `bitcoindark`. -/
def bitcoindarkData : Data :=
  { name := some "bitcoindark"
    alias_ := some "bitcoindark"
    pubkeyhash := numeral 0x3c (by decide)
    privatekey := numeral 0xbc (by decide)
    scripthash := numeral 0x85 (by decide)
    xpubkey := numeral 0x0488b21e (by decide)
    xprivkey := numeral 0x0488ade4 (by decide)
    networkMagic := 0xe4c2d8e6
    port := numeral 14631 (by decide)
    dnsSeeds := some
      { ref := 9
        items := [] } }

/-- The ten object literals in the order of the calls. -/
def wellKnown : List Data :=
  [livenetData, testnetData, dogecoinData, litecoinData, dashData, peercoinData, namecoinData, digibyteData, blackcoinData, bitcoindarkData]

/-- The registry once the module is loaded: the ten calls of `addNetwork` in
the order of the file, from the empty registry. -/
def State.initial : State :=
  wellKnown.foldl (fun s data => (addNetwork s data).2) State.empty

/-- The exports of the module that name a network: each is `get` of the name at
load time; `defaultNetwork` and `mainnet` are the variable `livenet`. -/
structure Exports where
  defaultNetwork : Value
  livenet : Value
  mainnet : Value
  testnet : Value
  dogecoin : Value
  litecoin : Value
  dash : Value
  peercoin : Value
  namecoin : Value
  digibyte : Value
  blackcoin : Value
  bitcoindark : Value

/-- The object `module.exports` (its network accessors). -/
def exports : Exports :=
  let livenet := get State.initial (.str "livenet") .absent
  let testnet := get State.initial (.str "testnet") .absent
  let dogecoin := get State.initial (.str "dogecoin") .absent
  let litecoin := get State.initial (.str "litecoin") .absent
  let dash := get State.initial (.str "dash") .absent
  let peercoin := get State.initial (.str "peercoin") .absent
  let namecoin := get State.initial (.str "namecoin") .absent
  let digibyte := get State.initial (.str "digibyte") .absent
  let blackcoin := get State.initial (.str "blackcoin") .absent
  let bitcoindark := get State.initial (.str "bitcoindark") .absent
  { defaultNetwork := livenet
    livenet := livenet
    mainnet := livenet
    testnet := testnet
    dogecoin := dogecoin
    litecoin := litecoin
    dash := dash
    peercoin := peercoin
    namecoin := namecoin
    digibyte := digibyte
    blackcoin := blackcoin
    bitcoindark := bitcoindark }

/-! ## Vocabulary of the statements -/

/-- An integer of magnitude below `2^53` as a value. -/
def Value.int (n : Int) (safe : n.natAbs < 2 ^ 53) : Value :=
  .num (.int n safe)

/-- Some element of `networks` is `=== arg`: `arg` is a registered descriptor. -/
def isRegistered (s : State) (arg : Value) : Bool :=
  s.networks.any (fun n => strictEq (.network n) arg)

/-- Some field named in `fs` of the descriptor `n` is `=== arg`: the predicate
`_.any(keys, containsArg)` of `get`. -/
def containsArg (arg : Value) (fs : List Field) (n : Network) : Bool :=
  fs.any (fun key => strictEq (n.prop key) arg)

/-- The values of a descriptor that `addNetwork` indexes: those of its
properties that pass the test of the callback. -/
def Network.scalars (n : Network) : List Value :=
  n.values.filter isScalar

/-- The name of the descriptor a value is, `none` when the value is no
descriptor or the descriptor has no name. -/
def Value.networkName : Value → Option String
  | .network n => n.name
  | _ => none

/-- The descriptor the first call `addNetwork` of the module returns. -/
def livenetNetwork : Network :=
  newNetwork State.empty livenetData

/-- The last element of `networks` that has `v` among its indexed values, as a
value (`undefined` when there is none). -/
def lastHolder (s : State) (v : Value) : Value :=
  match (s.networks.filter (fun e => e.scalars.any (strictEq v))).getLast? with
  | some e => .network e
  | none => .undefined

/-- The state `t` comes from the state `s` by calls of `addNetwork` that
return and calls of `removeNetwork` (calls of `get` leave the state as it
is). -/
inductive Steps : State → State → Prop where
  | refl (s : State) : Steps s s
  | add {s t : State} (data : Data) (d : Network) :
    Steps s t → (addNetwork t data).1 = .ok d → Steps s (addNetwork t data).2
  | remove {s t : State} (network : Network) : Steps s t → Steps s (removeNetwork t network)

/-- The call `addNetwork(data)` returns in the state `s`: no assignment of its
loop raises. -/
def returns (s : State) (data : Data) : Bool :=
  match (addNetwork s data).1 with
  | .ok _ => true
  | .error _ => false

/-- A registry state the module can be in: one that calls of `addNetwork` that
return and calls of `removeNetwork` produce from the empty registry. -/
def Reachable (s : State) : Prop :=
  Steps State.empty s

/-- A registry built from the empty one by calls of `addNetwork` alone, each of
which returned. -/
inductive Built : State → Prop where
  | empty : Built State.empty
  | add {s : State} (data : Data) (d : Network) :
    Built s → (addNetwork s data).1 = .ok d → Built (addNetwork s data).2

/-- What holds of every reachable state: the identities in `networks` and of
the prototype of `networkMaps` were handed out by the counter, those in
`networks` are pairwise different, the byte sequence of a descriptor carries
the descriptor's number, and every own property of `networkMaps` leads to an
element of `networks` under the key of one of its scalar properties. -/
structure Inv (s : State) : Prop where
  fresh : ∀ n ∈ s.networks, n.ref < s.nextRef
  nodup : (s.networks.map (fun n => n.ref)).Nodup
  magic : ∀ n ∈ s.networks, n.networkMagic.ref = n.ref
  indexed : ∀ k n, s.networkMaps k = some n →
    n ∈ s.networks ∧ ∃ f, isScalar (n.prop f) = true ∧ toPropertyKey (n.prop f) = k
  proto : ∀ p, s.prototype = some p → p.ref < s.nextRef

/-- No two different descriptors of `networks` have an indexed value with the
same property key. -/
def UniqueKeys (s : State) : Prop :=
  ∀ d1 ∈ s.networks, ∀ d2 ∈ s.networks, ∀ v1 ∈ d1.scalars, ∀ v2 ∈ d2.scalars,
    toPropertyKey v1 = toPropertyKey v2 → d1 = d2

/-- The descriptor `d` occurs twice in a row in the sequence. -/
def twiceInARow (d : Network) : List Network → Bool
  | [] => false
  | a :: rest =>
    match rest with
    | [] => false
    | b :: _ => (a.ref == d.ref && b.ref == d.ref) || twiceInARow d rest

/-- Modelled from the spec: `JSUtil.defineImmutable` lives in `lib/util/js`,
which is not among the sources. The spec has a descriptor immutable once it is
constructed: an assignment `network[key] = value` is rejected or has no effect.
Either way the descriptor after the attempt is the descriptor before it. -/
def Network.assign (n : Network) (_key : Field) (_value : Value) : Network :=
  n

/-- Modelled from the spec: the registry after a caller attempted the
assignment `network[key] = value` on a descriptor. The descriptors of
`networks` and of `networkMaps` with the identity of `network` are the object
assigned to; each is replaced by what `Network.assign` leaves. -/
def assignField (s : State) (network : Network) (key : Field) (value : Value) : State :=
  { networks := s.networks.map
      (fun n => if n.ref = network.ref then n.assign key value else n)
    networkMaps := fun k =>
      (s.networkMaps k).map (fun n => if n.ref = network.ref then n.assign key value else n)
    prototype :=
      s.prototype.map (fun n => if n.ref = network.ref then n.assign key value else n)
    nextRef := s.nextRef }

/-! ## Records and states of the examples -/

/-- The network of the scenario the specification tests with. -/
def testcoinData : Data :=
  { name := some "testcoin"
    alias_ := none
    pubkeyhash := numeral 0x1a (by decide)
    privatekey := none
    scripthash := none
    xpubkey := none
    xprivkey := none
    networkMagic := 0xaabbccdd
    port := numeral 9000 (by decide)
    dnsSeeds := some { ref := 10, items := ["seed.testcoin.example"] } }

/-- A network whose name is the text its magic bytes read as. -/
def abcdData : Data :=
  { testcoinData with name := some "abcd", networkMagic := 0x61626364 }

/-- A network whose name is the numeral of the port of testcoin. -/
def name9000Data : Data :=
  { testcoinData with name := some "9000", pubkeyhash := none, port := none }

/-- A network with the name `__proto__` and nothing else to index. -/
def protoData : Data :=
  { testcoinData with name := some "__proto__", pubkeyhash := none, port := none }

/-- A network with the name `__proto__` and the alias `name`. -/
def protoNameData : Data :=
  { protoData with alias_ := some "name" }

/-- A network with the name `foo` and the alias `__proto__`. -/
def fooProtoData : Data :=
  { protoData with name := some "foo", alias_ := some "__proto__" }

/-- A network whose port is `NaN`. -/
def nanPortData : Data :=
  { testcoinData with pubkeyhash := none, port := some .nan }

/-- A network whose name is the decimal numeral of `10^21`. -/
def bigNameData : Data :=
  { name9000Data with name := some "1000000000000000000000" }

/-- A state `networks` cannot get into through `addNetwork`: the descriptor of
livenet twice in a row. -/
def duplicateState : State :=
  { State.initial with networks := [livenetNetwork, livenetNetwork] }

/-- A state with the descriptor of livenet twice, testnet between the two. -/
def spacedState : State :=
  { State.initial with
    networks :=
      [livenetNetwork, newNetwork (addNetwork State.empty livenetData).2 testnetData,
        livenetNetwork] }

/-- A network with the name `__proto__` and the port `9000`. -/
def protoPortData : Data :=
  { protoData with port := numeral 9000 (by decide) }

/-! ## Lemmas on the operations -/

theorem indexOf_ge (xs : List Network) (arg : Value) : -1 ≤ indexOf xs arg := by
  induction xs with
  | nil => simp [indexOf]
  | cons n rest ih =>
    simp only [indexOf]
    split
    · omega
    · split <;> omega

theorem indexOf_eq_neg_one (xs : List Network) (arg : Value) :
    indexOf xs arg = -1 ↔ ∀ n ∈ xs, strictEq (.network n) arg = false := by
  induction xs with
  | nil => simp [indexOf]
  | cons n rest ih =>
    have hge := indexOf_ge rest arg
    simp only [indexOf, List.mem_cons, forall_eq_or_imp]
    by_cases h : strictEq (.network n) arg = true
    · simp [h]
    · simp only [h, Bool.false_eq_true, if_false]
      rw [← ih]
      constructor
      · intro h2
        refine ⟨by simp [h], ?_⟩
        by_contra h3
        simp only [h3, if_false] at h2
        omega
      · intro h2
        simp [h2.2]

theorem bitNot_indexOf (s : State) (arg : Value) :
    bitNot (indexOf s.networks arg) ≠ 0 ↔ isRegistered s arg = true := by
  have h := indexOf_eq_neg_one s.networks arg
  have h2 : bitNot (indexOf s.networks arg) ≠ 0 ↔ ¬ indexOf s.networks arg = -1 := by
    unfold bitNot
    constructor <;> intro h3 <;> omega
  rw [h2, h]
  simp [isRegistered]

theorem get_registered (s : State) (arg : Value) (keys : Keys)
    (h : isRegistered s arg = true) : get s arg keys = arg := by
  unfold get
  rw [if_pos ((bitNot_indexOf s arg).2 h)]

theorem get_list (s : State) (arg : Value) (fs : List Field)
    (h : isRegistered s arg = false) :
    get s arg (.list fs) =
      match s.networks.find? (containsArg arg fs) with
      | some n => .network n
      | none => .undefined := by
  have h2 : ¬ bitNot (indexOf s.networks arg) ≠ 0 := by
    rw [bitNot_indexOf]
    simp [h]
  unfold get
  rw [if_neg h2]
  rfl

theorem get_absent (s : State) (arg : Value) (h : isRegistered s arg = false) :
    get s arg .absent = readKey s (toPropertyKey arg) := by
  have h2 : ¬ bitNot (indexOf s.networks arg) ≠ 0 := by
    rw [bitNot_indexOf]
    simp [h]
  unfold get
  rw [if_neg h2]
  rfl

theorem get_single (s : State) (arg : Value) (f : Field) :
    get s arg (.single f) = get s arg (.list [f]) := rfl

theorem strictEq_network (a b : Network) :
    strictEq (.network a) (.network b) = (a.ref == b.ref) := rfl

theorem isRegistered_of_isScalar (s : State) (v : Value) (h : isScalar v = true) :
    isRegistered s v = false := by
  cases v <;> simp [isScalar, isUndefined, isObject, isRegistered, strictEq] at h ⊢

theorem isRegistered_buffer (s : State) (b : Buffer) : isRegistered s (.buffer b) = false := by
  simp [isRegistered, strictEq]

theorem isRegistered_network (s : State) (d : Network) :
    isRegistered s (.network d) = true ↔ ∃ n ∈ s.networks, n.ref = d.ref := by
  simp [isRegistered, strictEq_network]

theorem isRegistered_eq_true (s : State) (k : Value) (h : isRegistered s k = true) :
    ∃ m, k = .network m := by
  simp only [isRegistered, List.any_eq_true] at h
  obtain ⟨n, _, hn⟩ := h
  cases k <;> simp [strictEq] at hn
  exact ⟨_, rfl⟩

theorem ofString_ne_network (o : Option String) (e : Network) : ofString o ≠ .network e := by
  cases o <;> simp [ofString]

theorem ofNumber_ne_network (o : Option Num) (e : Network) : ofNumber o ≠ .network e := by
  cases o <;> simp [ofNumber]

theorem ofArray_ne_network (o : Option StringArray) (e : Network) :
    ofArray o ≠ .network e := by
  cases o <;> simp [ofArray]

/-- No property of a descriptor is a descriptor. -/
theorem prop_ne_network (p : Network) (f : Field) (e : Network) : p.prop f ≠ .network e := by
  cases f <;>
    simp [Network.prop, ofString_ne_network, ofNumber_ne_network, ofArray_ne_network]

/-- What `networkMaps` inherits is no descriptor. -/
theorem inherited_ne_network (s : State) (key : String) (e : Network) :
    inherited s key ≠ .network e := by
  have hobj : objectPrototypeGet key ≠ .network e := by
    unfold objectPrototypeGet
    split
    · simp
    · split <;> simp
  unfold inherited
  cases s.prototype with
  | none => exact hobj
  | some p =>
    simp only [networkGet]
    cases Field.ofKey key with
    | none =>
      simp only
      split
      · simp
      · split
        · simp
        · exact hobj
    | some f => exact prop_ne_network p f e

theorem readKey_of_ne (s : State) (key : String) (h : key ≠ "__proto__") :
    readKey s key =
      match s.networkMaps key with
      | some n => .network n
      | none => inherited s key := by
  unfold readKey
  rw [if_neg h]

theorem mem_values (n : Network) (v : Value) : v ∈ n.values ↔ ∃ f, n.prop f = v := by
  constructor
  · intro h
    simp only [Network.values, List.mem_map] at h
    obtain ⟨f, _, hf⟩ := h
    exact ⟨f, hf⟩
  · rintro ⟨f, rfl⟩
    simp only [Network.values, List.mem_map]
    exact ⟨f, by cases f <;> simp [Field.all], rfl⟩

theorem mem_scalars (n : Network) (v : Value) :
    v ∈ n.scalars ↔ isScalar v = true ∧ ∃ f, n.prop f = v := by
  simp only [Network.scalars, List.mem_filter, mem_values]
  exact and_comm

theorem any_scalar_key (n : Network) (key : String) :
    n.values.any (fun v => isScalar v && (toPropertyKey v == key)) = true ↔
      ∃ v ∈ n.scalars, toPropertyKey v = key := by
  simp only [List.any_eq_true, Bool.and_eq_true, beq_iff_eq, Network.scalars, List.mem_filter]
  constructor
  · rintro ⟨v, hv, hsc, hk⟩
    exact ⟨v, ⟨hv, hsc⟩, hk⟩
  · rintro ⟨v, ⟨hv, hsc⟩, hk⟩
    exact ⟨v, hv, hsc, hk⟩

/-- What an assignment `networkMaps[key] = network` that does not raise leaves. -/
theorem writeKey_ok {s s2 : State} {key : String} {network : Network}
    (h : writeKey s key network = .ok s2) :
    s2.networks = s.networks ∧ s2.nextRef = s.nextRef ∧
    s2.networkMaps = (if key = "__proto__" then s.networkMaps
      else setKey s.networkMaps key network) ∧
    s2.prototype = (if key = "__proto__" then some network else s.prototype) := by
  unfold writeKey at h
  by_cases hk : key = "__proto__"
  · rw [if_pos hk] at h
    simp only [Except.ok.injEq] at h
    subst h
    simp [hk]
  · rw [if_neg hk] at h
    have hset : ∀ t : State,
        t = { s with networkMaps := setKey s.networkMaps key network } →
        t.networks = s.networks ∧ t.nextRef = s.nextRef ∧
        t.networkMaps = (if key = "__proto__" then s.networkMaps
          else setKey s.networkMaps key network) ∧
        t.prototype = (if key = "__proto__" then some network else s.prototype) := by
      intro t ht
      subst ht
      simp [hk]
    split at h
    · simp only [Except.ok.injEq] at h
      exact hset s2 h.symm
    · split at h
      · split at h
        · simp at h
        · simp only [Except.ok.injEq] at h
          exact hset s2 h.symm
      · simp only [Except.ok.injEq] at h
        exact hset s2 h.symm

/-- What the loop over the values leaves when no assignment raises. -/
theorem eachValue_ok (network : Network) (vs : List Value) :
    ∀ (s s2 : State), eachValue network vs s = (.ok (), s2) →
      s2.networks = s.networks ∧ s2.nextRef = s.nextRef ∧
      (∀ k, s2.networkMaps k =
        if k ≠ "__proto__" ∧ vs.any (fun v => isScalar v && (toPropertyKey v == k)) = true
        then some network else s.networkMaps k) ∧
      s2.prototype =
        (if vs.any (fun v => isScalar v && (toPropertyKey v == "__proto__")) = true
        then some network else s.prototype) := by
  induction vs with
  | nil =>
    intro s s2 h
    simp only [eachValue, Prod.mk.injEq, true_and] at h
    subst h
    simp
  | cons v rest ih =>
    intro s s2 h
    rw [eachValue] at h
    by_cases hv : isScalar v = true
    · have hv2 : (!isUndefined v && !isObject v) = true := hv
      rw [if_pos hv2] at h
      cases hw : writeKey s (toPropertyKey v) network with
      | error e => simp [hw] at h
      | ok s1 =>
        simp only [hw] at h
        obtain ⟨h1, h2, h3, h4⟩ := ih s1 s2 h
        obtain ⟨w1, w2, w3, w4⟩ := writeKey_ok hw
        refine ⟨h1.trans w1, h2.trans w2, ?_, ?_⟩
        · intro k
          rw [h3 k, w3]
          by_cases hk : k = "__proto__"
          · subst hk
            by_cases hvk : toPropertyKey v = "__proto__"
            · simp [hvk]
            · simp [hvk, setKey, Ne.symm hvk]
          · by_cases hrest : rest.any (fun v => isScalar v && (toPropertyKey v == k)) = true
            · simp [hk, hrest]
            · by_cases hvk : toPropertyKey v = k
              · have hvp : ¬ toPropertyKey v = "__proto__" := fun h => hk (hvk ▸ h)
                simp [hk, hrest, hv, hvk, hvp, setKey]
              · have hkv : ¬ k = toPropertyKey v := fun h => hvk h.symm
                have hk2 : ¬ "__proto__" = k := fun h => hk h.symm
                by_cases hvp : toPropertyKey v = "__proto__"
                · simp [hk, hk2, hrest, hv, hvp]
                · simp [hk, hrest, hv, hvk, hvp, hkv, setKey]
        · rw [h4, w4]
          by_cases hrest : rest.any
              (fun v => isScalar v && (toPropertyKey v == "__proto__")) = true
          · simp [hrest]
          · by_cases hvp : toPropertyKey v = "__proto__"
            · simp [hrest, hv, hvp]
            · simp [hrest, hv, hvp]
    · have hv2 : ¬ (!isUndefined v && !isObject v) = true := hv
      rw [if_neg hv2] at h
      obtain ⟨h1, h2, h3, h4⟩ := ih s s2 h
      refine ⟨h1, h2, ?_, ?_⟩
      · intro k
        rw [h3 k]
        simp [hv]
      · rw [h4]
        simp [hv]

/-- What a call of `addNetwork` that returns leaves. -/
theorem addNetwork_ok {s : State} {data : Data} {d : Network}
    (h : (addNetwork s data).1 = .ok d) :
    d = newNetwork s data ∧
    (addNetwork s data).2.networks = s.networks ++ [d] ∧
    (addNetwork s data).2.nextRef = s.nextRef + 1 ∧
    (∀ k, (addNetwork s data).2.networkMaps k =
      if k ≠ "__proto__" ∧ d.values.any (fun v => isScalar v && (toPropertyKey v == k)) = true
      then some d else s.networkMaps k) ∧
    (addNetwork s data).2.prototype =
      (if d.values.any (fun v => isScalar v && (toPropertyKey v == "__proto__")) = true
      then some d else s.prototype) := by
  unfold addNetwork at h ⊢
  cases he : eachValue (newNetwork s data) (newNetwork s data).values
      { s with nextRef := s.nextRef + 1 } with
  | mk r s2 =>
    cases r with
    | error e => simp [he] at h
    | ok u =>
      simp only [he, Except.ok.injEq] at h ⊢
      subst h
      obtain ⟨h1, h2, h3, h4⟩ := eachValue_ok _ _ _ _ he
      exact ⟨rfl, by simp [h1], h2, h3, h4⟩

theorem addNetwork_ref {s : State} {data : Data} {d : Network}
    (h : (addNetwork s data).1 = .ok d) : d.ref = s.nextRef := by
  rw [(addNetwork_ok h).1]
  rfl

theorem addNetwork_magic_ref {s : State} {data : Data} {d : Network}
    (h : (addNetwork s data).1 = .ok d) : d.networkMagic.ref = s.nextRef := by
  rw [(addNetwork_ok h).1]
  rfl

theorem addNetwork_mem {s : State} {data : Data} {d : Network}
    (h : (addNetwork s data).1 = .ok d) : d ∈ (addNetwork s data).2.networks := by
  rw [(addNetwork_ok h).2.1]
  simp

theorem returns_iff (s : State) (data : Data) :
    returns s data = true ↔ (addNetwork s data).1 = .ok (newNetwork s data) := by
  unfold returns
  constructor
  · intro h
    cases hr : (addNetwork s data).1 with
    | error e => simp [hr] at h
    | ok d => rw [(addNetwork_ok hr).1]
  · intro h
    rw [h]

theorem Steps.add_returned {s t : State} (data : Data) (h : Steps s t)
    (hr : returns t data = true) : Steps s (addNetwork t data).2 :=
  Steps.add data (newNetwork t data) h ((returns_iff t data).1 hr)

theorem Built.add_returns {s : State} (data : Data) (h : Built s)
    (hr : returns s data = true) : Built (addNetwork s data).2 :=
  Built.add data (newNetwork s data) h ((returns_iff s data).1 hr)

theorem Steps.trans {a b c : State} (hab : Steps a b) (hbc : Steps b c) : Steps a c := by
  induction hbc with
  | refl => exact hab
  | add data d _ hr ih => exact Steps.add data d ih hr
  | remove network _ ih => exact Steps.remove network ih

theorem Built.reachable {s : State} (h : Built s) : Reachable s := by
  induction h with
  | empty => exact Steps.refl _
  | add data d _ hr ih => exact Steps.add data d ih hr

theorem spliceLoop_cons (d x : Network) (rest : List Network) :
    spliceLoop d (x :: rest) =
      if x.ref = d.ref then
        match rest with
        | [] => []
        | y :: rest2 => y :: spliceLoop d rest2
      else x :: spliceLoop d rest := by
  conv_lhs => rw [spliceLoop.eq_def]
  simp only [strictEq_network, beq_iff_eq]

theorem spliceLoop_of_absent (d : Network) (xs : List Network)
    (h : ∀ x ∈ xs, x.ref ≠ d.ref) : spliceLoop d xs = xs := by
  induction xs with
  | nil => rfl
  | cons x rest ih =>
    have hx : x.ref ≠ d.ref := h x (by simp)
    have hrest : ∀ y ∈ rest, y.ref ≠ d.ref := fun y hy => h y (by simp [hy])
    rw [spliceLoop_cons, if_neg hx, ih hrest]

/-- When the descriptor does not occur twice in a row, the first loop of
`removeNetwork` takes out every occurrence. -/
theorem spliceLoop_of_not_twice (d : Network) (xs : List Network)
    (h : twiceInARow d xs = false) :
    spliceLoop d xs = xs.filter (fun x => x.ref != d.ref) := by
  have hlen : ∀ (n : Nat) (ys : List Network), ys.length ≤ n → twiceInARow d ys = false →
      spliceLoop d ys = ys.filter (fun x => x.ref != d.ref) := by
    intro n
    induction n with
    | zero =>
      intro ys hys _
      cases ys with
      | nil => rfl
      | cons z zs => simp at hys
    | succ m ihm =>
      intro ys hys htw
      cases ys with
      | nil => rfl
      | cons z zs =>
        simp only [List.length_cons] at hys
        rw [spliceLoop_cons]
        cases zs with
        | nil =>
          by_cases hz : z.ref = d.ref
          · simp [hz]
          · simp [hz, spliceLoop.eq_1]
        | cons w ws =>
          simp only [twiceInARow, Bool.or_eq_false_iff, Bool.and_eq_false_imp, beq_iff_eq,
            beq_eq_false_iff_ne, ne_eq] at htw
          simp only [List.length_cons] at hys
          by_cases hz : z.ref = d.ref
          · have hw : ¬ w.ref = d.ref := htw.1 hz
            have htw2 : twiceInARow d ws = false := by
              cases ws with
              | nil => rfl
              | cons u us =>
                have h3 := htw.2
                simp only [twiceInARow, Bool.or_eq_false_iff, Bool.and_eq_false_imp, beq_iff_eq,
                  beq_eq_false_iff_ne, ne_eq] at h3
                exact h3.2
            rw [if_pos hz, List.filter_cons_of_neg (by simp [hz]),
              List.filter_cons_of_pos (by simp [hw])]
            show w :: spliceLoop d ws = w :: List.filter (fun x => x.ref != d.ref) ws
            rw [ihm ws (by omega) htw2]
          · rw [if_neg hz, List.filter_cons_of_pos (by simp [hz]),
              ihm (w :: ws) (by simp only [List.length_cons]; omega) htw.2]
  exact hlen xs.length xs (Nat.le_refl _) h

theorem twiceInARow_of_nodup (d : Network) (xs : List Network)
    (h : (xs.map (fun n => n.ref)).Nodup) : twiceInARow d xs = false := by
  induction xs with
  | nil => rfl
  | cons x rest ih =>
    simp only [List.map_cons, List.nodup_cons, List.mem_map, not_exists, not_and] at h
    cases rest with
    | nil => rfl
    | cons y rest2 =>
      simp only [twiceInARow, Bool.or_eq_false_iff, Bool.and_eq_false_imp, beq_iff_eq,
        beq_eq_false_iff_ne, ne_eq]
      refine ⟨fun hx hy => h.1 y (by simp) (hy.trans hx.symm), ?_⟩
      have := ih h.2
      simpa [twiceInARow] using this

/-- Without repeated identities the first loop of `removeNetwork` takes out
every occurrence. -/
theorem spliceLoop_of_nodup (d : Network) (xs : List Network)
    (h : (xs.map (fun n => n.ref)).Nodup) :
    spliceLoop d xs = xs.filter (fun x => x.ref != d.ref) :=
  spliceLoop_of_not_twice d xs (twiceInARow_of_nodup d xs h)

theorem deleteKeys_eq_some (d : Network) (maps : String → Option Network) (k : String)
    (n : Network) : deleteKeys d maps k = some n ↔ maps k = some n ∧ n.ref ≠ d.ref := by
  unfold deleteKeys
  cases hm : maps k with
  | none => simp
  | some m =>
    by_cases hr : m.ref = d.ref
    · simp only [strictEq_network, hr, beq_self_eq_true, if_true, Option.some.injEq]
      constructor
      · intro h
        simp at h
      · rintro ⟨rfl, h⟩
        exact absurd hr h
    · simp only [strictEq_network, beq_iff_eq, hr, if_false, Option.some.injEq]
      constructor
      · rintro rfl
        exact ⟨rfl, hr⟩
      · rintro ⟨rfl, _⟩
        rfl

theorem Inv.empty : Inv State.empty :=
  { fresh := by simp [State.empty]
    nodup := by simp [State.empty]
    magic := by simp [State.empty]
    indexed := by simp [State.empty]
    proto := by simp [State.empty] }

theorem Inv.add {s : State} (h : Inv s) {data : Data} {d : Network}
    (hr : (addNetwork s data).1 = .ok d) : Inv (addNetwork s data).2 := by
  obtain ⟨_, hnet, hnext, hmaps, hproto⟩ := addNetwork_ok hr
  have href := addNetwork_ref hr
  refine ⟨?_, ?_, ?_, ?_, ?_⟩
  · intro n hn
    rw [hnet, List.mem_append, List.mem_singleton] at hn
    rw [hnext]
    rcases hn with hn | rfl
    · have := h.fresh n hn
      omega
    · omega
  · rw [hnet, List.map_append, List.nodup_append]
    refine ⟨h.nodup, by simp, ?_⟩
    intro r hr1 hr2
    simp only [List.map_cons, List.map_nil, List.mem_singleton] at hr2
    simp only [List.mem_map] at hr1
    obtain ⟨n, hn, rfl⟩ := hr1
    have := h.fresh n hn
    omega
  · intro n hn
    rw [hnet, List.mem_append, List.mem_singleton] at hn
    rcases hn with hn | rfl
    · exact h.magic n hn
    · rw [addNetwork_magic_ref hr, href]
  · intro k n hk
    rw [hmaps k] at hk
    rw [hnet, List.mem_append, List.mem_singleton]
    split at hk
    · rename_i hany
      simp only [Option.some.injEq] at hk
      subst hk
      refine ⟨Or.inr rfl, ?_⟩
      obtain ⟨v, hv, hkey⟩ := (any_scalar_key _ _).1 hany.2
      obtain ⟨hsc, f, hf⟩ := (mem_scalars _ v).1 hv
      exact ⟨f, hf ▸ hsc, hf ▸ hkey⟩
    · obtain ⟨hmem, hf⟩ := h.indexed k n hk
      exact ⟨Or.inl hmem, hf⟩
  · intro p hp
    rw [hproto] at hp
    rw [hnext]
    split at hp
    · simp only [Option.some.injEq] at hp
      subst hp
      omega
    · have := h.proto p hp
      omega

theorem removeNetwork_networks {s : State} (h : Inv s) (d : Network) :
    (removeNetwork s d).networks = s.networks.filter (fun x => x.ref != d.ref) :=
  spliceLoop_of_nodup d s.networks h.nodup

theorem Inv.remove {s : State} (h : Inv s) (d : Network) : Inv (removeNetwork s d) := by
  have hnet := removeNetwork_networks h d
  refine ⟨?_, ?_, ?_, ?_, ?_⟩
  · intro n hn
    rw [hnet] at hn
    exact h.fresh n (List.mem_filter.1 hn).1
  · rw [hnet]
    exact h.nodup.sublist ((List.filter_sublist s.networks).map _)
  · intro n hn
    rw [hnet] at hn
    exact h.magic n (List.mem_filter.1 hn).1
  · intro k n hk
    have hk2 : deleteKeys d s.networkMaps k = some n := hk
    rw [deleteKeys_eq_some] at hk2
    obtain ⟨hmem, hf⟩ := h.indexed k n hk2.1
    rw [hnet]
    exact ⟨List.mem_filter.2 ⟨hmem, by simpa using hk2.2⟩, hf⟩
  · exact h.proto

theorem Inv.steps {s t : State} (h : Inv s) (hst : Steps s t) : Inv t := by
  induction hst with
  | refl => exact h
  | add data d _ hr ih => exact ih.add hr
  | remove network _ ih => exact ih.remove network

theorem Reachable.inv {s : State} (h : Reachable s) : Inv s :=
  Inv.empty.steps h

theorem Steps.nextRef_le {s t : State} (h : Steps s t) : s.nextRef ≤ t.nextRef := by
  induction h with
  | refl => exact Nat.le_refl _
  | add data d _ hr ih =>
    rw [(addNetwork_ok hr).2.2.1]
    omega
  | remove network _ ih => exact ih

theorem built_initial : Built State.initial :=
  Built.add_returns bitcoindarkData (Built.add_returns blackcoinData
    (Built.add_returns digibyteData (Built.add_returns namecoinData
      (Built.add_returns peercoinData (Built.add_returns dashData
        (Built.add_returns litecoinData (Built.add_returns dogecoinData
          (Built.add_returns testnetData (Built.add_returns livenetData Built.empty
            (by decide)) (by decide)) (by decide)) (by decide)) (by decide)) (by decide))
      (by decide)) (by decide)) (by decide)) (by decide)

theorem reachable_initial : Reachable State.initial :=
  built_initial.reachable

/-- Later states hold the descriptors of an earlier state or younger ones. -/
theorem Steps.mem_networks {s t : State} (hs : Inv s) (hst : Steps s t) :
    ∀ n ∈ t.networks, n ∈ s.networks ∨ s.nextRef ≤ n.ref := by
  induction hst with
  | refl => exact fun n hn => Or.inl hn
  | @add u data d hsu hr ih =>
    intro n hn
    rw [(addNetwork_ok hr).2.1, List.mem_append, List.mem_singleton] at hn
    rcases hn with hn | rfl
    · exact ih n hn
    · right
      rw [addNetwork_ref hr]
      exact hsu.nextRef_le
  | @remove u network hsu ih =>
    intro n hn
    rw [removeNetwork_networks (hs.steps hsu) network] at hn
    exact ih n (List.mem_filter.1 hn).1

theorem Inv.eq_of_ref {s : State} (h : Inv s) {a b : Network} (ha : a ∈ s.networks)
    (hb : b ∈ s.networks) (hab : a.ref = b.ref) : a = b :=
  List.inj_on_of_nodup_map h.nodup ha hb hab

/-- The lookup that follows a registration: every indexed value of the new
descriptor leads to it. -/
theorem get_addNetwork_scalar {s : State} {data : Data} {d : Network}
    (hr : (addNetwork s data).1 = .ok d) (v : Value) (hv : v ∈ d.scalars) :
    get (addNetwork s data).2 v .absent = .network d := by
  obtain ⟨_, _, _, hmaps, hproto⟩ := addNetwork_ok hr
  have hsc := ((mem_scalars _ v).1 hv).1
  rw [get_absent _ v (isRegistered_of_isScalar _ v hsc)]
  unfold readKey
  by_cases hk : toPropertyKey v = "__proto__"
  · rw [if_pos hk, hproto, if_pos ((any_scalar_key _ _).2 ⟨v, hv, hk⟩)]
  · rw [if_neg hk, hmaps, if_pos ⟨hk, (any_scalar_key _ _).2 ⟨v, hv, rfl⟩⟩]

/-- In a state with the invariant, a descriptor `get` returns is the argument,
an element of `networks`, or the prototype of `networkMaps` read under the key
`__proto__`. -/
theorem get_eq_network {s : State} (h : Inv s) (k : Value) (keys : Keys) (e : Network)
    (hget : get s k keys = .network e) :
    (k = .network e ∧ isRegistered s k = true) ∨ e ∈ s.networks ∨
      (keys = .absent ∧ toPropertyKey k = "__proto__" ∧ s.prototype = some e) := by
  by_cases hk : isRegistered s k = true
  · rw [get_registered s k keys hk] at hget
    exact Or.inl ⟨hget, hk⟩
  · have hk2 : isRegistered s k = false := by simpa using hk
    right
    cases keys with
    | absent =>
      rw [get_absent s k hk2] at hget
      by_cases hp : toPropertyKey k = "__proto__"
      · right
        refine ⟨rfl, hp, ?_⟩
        unfold readKey at hget
        rw [if_pos hp] at hget
        cases hpr : s.prototype with
        | none => simp [hpr] at hget
        | some p =>
          simp only [hpr, Value.network.injEq] at hget
          rw [hget]
      · left
        rw [readKey_of_ne s _ hp] at hget
        cases hm : s.networkMaps (toPropertyKey k) with
        | none =>
          simp only [hm] at hget
          exact absurd hget (inherited_ne_network s _ e)
        | some n =>
          simp only [hm, Value.network.injEq] at hget
          subst hget
          exact (h.indexed _ n hm).1
    | single f =>
      left
      rw [get_single, get_list s k [f] hk2] at hget
      cases hm : s.networks.find? (containsArg k [f]) with
      | none => simp [hm] at hget
      | some n =>
        simp only [hm, Value.network.injEq] at hget
        subst hget
        exact List.mem_of_find?_eq_some hm
    | list fs =>
      left
      rw [get_list s k fs hk2] at hget
      cases hm : s.networks.find? (containsArg k fs) with
      | none => simp [hm] at hget
      | some n =>
        simp only [hm, Value.network.injEq] at hget
        subst hget
        exact List.mem_of_find?_eq_some hm

theorem isScalar_ofString (o : Option String) :
    isScalar (ofString o) = true ↔ ofString o ≠ .undefined := by
  cases o <;> simp [ofString, isScalar, isUndefined, isObject]

theorem isScalar_ofNumber (o : Option Num) :
    isScalar (ofNumber o) = true ↔ ofNumber o ≠ .undefined := by
  cases o <;> simp [ofNumber, isScalar, isUndefined, isObject]

theorem isScalar_ofArray (o : Option StringArray) : isScalar (ofArray o) = false := by
  cases o <;> simp [ofArray, isScalar, isUndefined, isObject]

theorem isScalar_buffer (b : Buffer) : isScalar (.buffer b) = false := rfl

theorem mem_scalar_fields (n : Network) (f : Field) (h : isScalar (n.prop f) = true) :
    f ∈ [Field.name, .alias_, .pubkeyhash, .privatekey, .scripthash, .xpubkey, .xprivkey,
      .port] := by
  cases f <;> simp [Network.prop, isScalar_ofArray, isScalar_buffer] at h ⊢

/-- The first loop of `removeNetwork` only takes elements out: what is left
keeps its order. -/
theorem spliceLoop_sublist (d : Network) (xs : List Network) :
    (spliceLoop d xs).Sublist xs := by
  have hlen : ∀ (n : Nat) (ys : List Network), ys.length ≤ n →
      (spliceLoop d ys).Sublist ys := by
    intro n
    induction n with
    | zero =>
      intro ys hys
      cases ys with
      | nil => exact List.Sublist.refl _
      | cons z zs => simp at hys
    | succ m ihm =>
      intro ys hys
      cases ys with
      | nil => exact List.Sublist.refl _
      | cons z zs =>
        rw [spliceLoop_cons]
        split
        · cases zs with
          | nil => exact List.nil_sublist _
          | cons w ws =>
            simp only [List.length_cons] at hys
            exact List.Sublist.cons z (List.Sublist.cons₂ w (ihm ws (by omega)))
        · simp only [List.length_cons] at hys
          exact List.Sublist.cons₂ z (ihm zs (by omega))
  exact hlen xs.length xs (Nat.le_refl _)

theorem assignField_eq (s : State) (d : Network) (key : Field) (value : Value) :
    assignField s d key value = s := by
  cases s with
  | mk networks networkMaps prototype nextRef =>
    simp only [assignField, Network.assign, ite_self, List.map_id', State.mk.injEq, and_true,
      true_and]
    refine ⟨?_, ?_⟩
    · funext k
      cases networkMaps k <;> rfl
    · cases prototype <;> rfl

/-- Later states have the prototype of an earlier state or a younger one. -/
theorem Steps.prototype_cases {s t : State} (hst : Steps s t) :
    ∀ p, t.prototype = some p → s.prototype = some p ∨ s.nextRef ≤ p.ref := by
  induction hst with
  | refl => exact fun p hp => Or.inl hp
  | @add u data d hsu hr ih =>
    intro p hp
    rw [(addNetwork_ok hr).2.2.2.2] at hp
    split at hp
    · simp only [Option.some.injEq] at hp
      subst hp
      right
      rw [addNetwork_ref hr]
      exact hsu.nextRef_le
    · exact ih p hp
  | @remove u network hsu ih => exact fun p hp => ih p hp

/-- The result of `get` depends on `networks`, on the own property under the
key of the argument and on the prototype of `networkMaps` only. -/
theorem get_congr (s t : State) (k : Value) (keys : Keys) (hnet : t.networks = s.networks)
    (hmaps : t.networkMaps (toPropertyKey k) = s.networkMaps (toPropertyKey k))
    (hproto : t.prototype = s.prototype) : get t k keys = get s k keys := by
  unfold get readKey inherited
  rw [hnet, hmaps, hproto]

theorem add_remove_networks {s : State} (h : Inv s) {data : Data} {d : Network}
    (hr : (addNetwork s data).1 = .ok d) :
    (removeNetwork (addNetwork s data).2 d).networks = s.networks := by
  rw [removeNetwork_networks (h.add hr), (addNetwork_ok hr).2.1, List.filter_append]
  have h1 : s.networks.filter (fun x => x.ref != d.ref) = s.networks := by
    rw [List.filter_eq_self]
    intro n hn
    have := h.fresh n hn
    rw [addNetwork_ref hr]
    simp only [bne_iff_ne, ne_eq]
    omega
  rw [h1]
  simp

theorem add_remove_maps {s : State} (h : Inv s) {data : Data} {d : Network}
    (hr : (addNetwork s data).1 = .ok d) (key : String) :
    (removeNetwork (addNetwork s data).2 d).networkMaps key =
      if key ≠ "__proto__" ∧
        d.values.any (fun v => isScalar v && (toPropertyKey v == key)) = true
      then none
      else s.networkMaps key := by
  show deleteKeys d (addNetwork s data).2.networkMaps key = _
  unfold deleteKeys
  rw [(addNetwork_ok hr).2.2.2.1]
  by_cases hany : key ≠ "__proto__" ∧
      d.values.any (fun v => isScalar v && (toPropertyKey v == key)) = true
  · rw [if_pos hany, if_pos hany]
    simp [strictEq_network]
  · rw [if_neg hany, if_neg hany]
    cases hm : s.networkMaps key with
    | none => rfl
    | some n =>
      have hlt := h.fresh n (h.indexed key n hm).1
      have hne : n.ref ≠ d.ref := by
        rw [addNetwork_ref hr]
        omega
      simp [strictEq_network, hne]

/-- In a registry built by calls of `addNetwork` alone every indexed value of
every element of `networks` has its entry: an own property of `networkMaps`,
or, under the key `__proto__`, the prototype, which is then an element of
`networks` that has an indexed value with this key. -/
theorem Built.complete {s : State} (h : Built s) :
    (∀ d ∈ s.networks, ∀ v ∈ d.scalars, toPropertyKey v ≠ "__proto__" →
      ∃ n, s.networkMaps (toPropertyKey v) = some n) ∧
    (∀ d ∈ s.networks, ∀ v ∈ d.scalars, toPropertyKey v = "__proto__" →
      ∃ p, s.prototype = some p) ∧
    (∀ p, s.prototype = some p →
      p ∈ s.networks ∧ ∃ v ∈ p.scalars, toPropertyKey v = "__proto__") := by
  induction h with
  | empty => simp [State.empty]
  | @add s data d hs hr ih =>
    obtain ⟨_, hnet, _, hmaps, hproto⟩ := addNetwork_ok hr
    refine ⟨?_, ?_, ?_⟩
    · intro e he v hv hk
      rw [hmaps]
      split
      · exact ⟨_, rfl⟩
      · rename_i hany
        rw [hnet, List.mem_append, List.mem_singleton] at he
        rcases he with he | rfl
        · exact ih.1 e he v hv hk
        · exact absurd ⟨hk, (any_scalar_key _ _).2 ⟨v, hv, rfl⟩⟩ hany
    · intro e he v hv hk
      rw [hproto]
      split
      · exact ⟨_, rfl⟩
      · rename_i hany
        rw [hnet, List.mem_append, List.mem_singleton] at he
        rcases he with he | rfl
        · exact ih.2.1 e he v hv hk
        · exact absurd ((any_scalar_key _ _).2 ⟨v, hv, hk⟩) hany
    · intro p hp
      rw [hproto] at hp
      rw [hnet]
      split at hp
      · rename_i hany
        simp only [Option.some.injEq] at hp
        subst hp
        exact ⟨by simp, (any_scalar_key _ _).1 hany⟩
      · obtain ⟨hmem, hv⟩ := ih.2.2 p hp
        exact ⟨by simp [hmem], hv⟩

theorem strictEq_self_of_isScalar (v : Value) (h : isScalar v = true) (hnan : v ≠ .num .nan) :
    strictEq v v = true := by
  cases v with
  | num x =>
    cases x with
    | nan => exact absurd rfl hnan
    | int n safe => simp [strictEq, Num.strictEq]
    | other text => simp [strictEq, Num.strictEq]
  | undefined => simp [isScalar, isUndefined] at h
  | null => rfl
  | bool b => simp [strictEq]
  | str s => simp [strictEq]
  | buffer b => simp [isScalar, isObject] at h
  | array a => simp [isScalar, isObject] at h
  | network n => simp [isScalar, isObject] at h
  | builtin b => simp [isScalar, isObject] at h

theorem Num.eq_of_strictEq (a b : Num) (h : a.strictEq b = true) : a = b := by
  cases a <;> cases b <;> simp [Num.strictEq] at h ⊢ <;> exact h

theorem eq_of_strictEq_of_isScalar (a v : Value) (h : isScalar v = true)
    (heq : strictEq a v = true) : a = v := by
  cases v <;> cases a <;> simp [isScalar, isUndefined, isObject, strictEq] at h heq ⊢
  · exact heq
  · exact Num.eq_of_strictEq _ _ heq
  · exact heq

theorem inherited_undefined (s : State) (key : String) (hp : s.prototype = none)
    (hk : key ∉ objectPrototypeKeys) : inherited s key = .undefined := by
  unfold inherited
  rw [hp]
  unfold objectPrototypeGet
  have hc : key ≠ "constructor" := by
    intro h
    exact hk (by rw [h]; decide)
  rw [if_neg hc, if_neg hk]

/-- The loop of `addNetwork` raises nothing as long as `networkMaps` has its
first prototype and no value has the key `__proto__`. -/
theorem eachValue_returns (network : Network) (vs : List Value) :
    ∀ s : State, s.prototype = none →
      (∀ v ∈ vs, isScalar v = true → toPropertyKey v ≠ "__proto__") →
      ∃ s2, eachValue network vs s = (.ok (), s2) := by
  induction vs with
  | nil => exact fun s _ _ => ⟨s, rfl⟩
  | cons v rest ih =>
    intro s hp hv
    rw [eachValue]
    have hrest : ∀ w ∈ rest, isScalar w = true → toPropertyKey w ≠ "__proto__" :=
      fun w hw => hv w (by simp [hw])
    by_cases hsc : isScalar v = true
    · have hsc2 : (!isUndefined v && !isObject v) = true := hsc
      have hk : toPropertyKey v ≠ "__proto__" := hv v (by simp) hsc
      rw [if_pos hsc2]
      have hw : writeKey s (toPropertyKey v) network =
          .ok { s with networkMaps := setKey s.networkMaps (toPropertyKey v) network } := by
        unfold writeKey
        rw [if_neg hk, hp]
        split <;> rfl
      rw [hw]
      exact ih _ hp hrest
    · have hsc2 : ¬ (!isUndefined v && !isObject v) = true := hsc
      rw [if_neg hsc2]
      exact ih s hp hrest

/-! ## The claims -/

/-- C1. Restricted lookup: when `k` is not a registered descriptor,
`get(k, fs)` returns the earliest element of `networks` that has a field named
in `fs` whose value is `=== k`, and it returns `undefined` exactly when no
element has such a field. On the initial registry `get(0x6f, ['pubkeyhash',
'scripthash'])` and `get(0xc4, ['pubkeyhash', 'scripthash'])` are testnet (the
second registration), `get(0x6f, ['privatekey', 'port'])` is `undefined`, and
`get(0x05, 'scripthash')` is livenet (the first registration). -/
theorem get_restricted_earliest :
    (∀ (s : State) (k : Value) (fs : List Field), isRegistered s k = false →
      ((∃ pre d post, s.networks = pre ++ d :: post ∧
          (∃ f ∈ fs, strictEq (d.prop f) k = true) ∧
          (∀ x ∈ pre, ∀ f ∈ fs, strictEq (x.prop f) k = false) ∧
          get s k (.list fs) = .network d) ∨
        ((∀ x ∈ s.networks, ∀ f ∈ fs, strictEq (x.prop f) k = false) ∧
          get s k (.list fs) = .undefined)) ∧
      (get s k (.list fs) = .undefined ↔
        ∀ x ∈ s.networks, ∀ f ∈ fs, strictEq (x.prop f) k = false)) ∧
    (∃ livenet testnet rest, State.initial.networks = livenet :: testnet :: rest ∧
      livenet.name = some "livenet" ∧ testnet.name = some "testnet" ∧
      get State.initial (.int 0x6f (by decide)) (.list [.pubkeyhash, .scripthash]) =
        .network testnet ∧
      get State.initial (.int 0xc4 (by decide)) (.list [.pubkeyhash, .scripthash]) =
        .network testnet ∧
      get State.initial (.int 0x6f (by decide)) (.list [.privatekey, .port]) = .undefined ∧
      get State.initial (.int 0x05 (by decide)) (.single .scripthash) = .network livenet) := by
  refine ⟨?_, ?_⟩
  · intro s k fs hk
    rw [get_list s k fs hk]
    cases hfind : s.networks.find? (containsArg k fs) with
    | none =>
      have hnone : ∀ x ∈ s.networks, ∀ f ∈ fs, strictEq (x.prop f) k = false := by
        intro x hx f hf
        have h1 := List.find?_eq_none.1 hfind x hx
        simp only [containsArg, List.any_eq_true, not_exists, not_and] at h1
        simpa using h1 f hf
      exact ⟨Or.inr ⟨hnone, rfl⟩, ⟨fun _ => hnone, fun _ => rfl⟩⟩
    | some d =>
      obtain ⟨hd, pre, post, hsplit, hpre⟩ := List.find?_eq_some.1 hfind
      have hd2 : ∃ f ∈ fs, strictEq (d.prop f) k = true := by
        simpa [containsArg] using hd
      refine ⟨Or.inl ⟨pre, d, post, hsplit, hd2, ?_, rfl⟩, ⟨?_, ?_⟩⟩
      · intro x hx f hf
        have h1 := hpre x hx
        simp only [containsArg, Bool.not_eq_true', List.any_eq_false] at h1
        simpa using h1 f hf
      · intro h
        simp at h
      · intro h
        obtain ⟨f, hf, hfk⟩ := hd2
        have hmem : d ∈ s.networks := by
          rw [hsplit]
          simp
        rw [h d hmem f hf] at hfk
        simp at hfk
  · refine ⟨State.initial.networks.get ⟨0, by decide⟩,
      State.initial.networks.get ⟨1, by decide⟩, State.initial.networks.drop 2, ?_⟩
    decide

/-- C1, on the initial registry: `0x6f` is no registered descriptor, and
`get(0x6f, ['pubkeyhash', 'scripthash'])` falls under the first case. -/
theorem get_restricted_earliest_witness :
    isRegistered State.initial (.int 0x6f (by decide)) = false ∧
    ((∃ pre d post, State.initial.networks = pre ++ d :: post ∧
        (∃ f ∈ [Field.pubkeyhash, Field.scripthash],
          strictEq (d.prop f) (.int 0x6f (by decide)) = true) ∧
        (∀ x ∈ pre, ∀ f ∈ [Field.pubkeyhash, Field.scripthash],
          strictEq (x.prop f) (.int 0x6f (by decide)) = false) ∧
        get State.initial (.int 0x6f (by decide)) (.list [.pubkeyhash, .scripthash]) =
          .network d) ∨
      ((∀ x ∈ State.initial.networks, ∀ f ∈ [Field.pubkeyhash, Field.scripthash],
          strictEq (x.prop f) (.int 0x6f (by decide)) = false) ∧
        get State.initial (.int 0x6f (by decide)) (.list [.pubkeyhash, .scripthash]) =
          .undefined)) :=
  ⟨by decide,
    (get_restricted_earliest.1 State.initial (.int 0x6f (by decide))
      [.pubkeyhash, .scripthash] (by decide)).1⟩

/-- C2, as stated, fails on the initial registry: livenet is registered with
`scripthash` `0x05`, and `get(0x05)` returns digibyte, the last of the four
networks registered with that value; so not every indexed value of every
well-known network leads back to it. -/
theorem initial_roundtrip_fails :
    livenetNetwork ∈ State.initial.networks ∧
    livenetNetwork.name = some "livenet" ∧
    livenetNetwork.scripthash = numeral 0x05 (by decide) ∧
    (get State.initial (.int 0x05 (by decide)) .absent).networkName = some "digibyte" ∧
    get State.initial (.int 0x05 (by decide)) .absent ≠ .network livenetNetwork ∧
    ¬ (∀ d ∈ State.initial.networks, ∀ v ∈ d.scalars,
        get State.initial v .absent = .network d) := by
  decide

/-- C2, amended. On the initial registry `get` of the name, of the alias and
of the port of each of the ten networks returns that network; `get` of any
indexed value of a network returns the last registered network that has the
value among its indexed values. -/
theorem initial_roundtrip :
    ∀ d ∈ State.initial.networks,
      get State.initial (ofString d.name) .absent = .network d ∧
      get State.initial (ofString d.alias_) .absent = .network d ∧
      get State.initial (ofNumber d.port) .absent = .network d ∧
      ∀ v ∈ d.scalars, get State.initial v .absent = lastHolder State.initial v := by
  decide

/-- C2, amended, at livenet: name, alias and port lead back to livenet, the
other values to the last network registered with them. -/
theorem initial_roundtrip_witness :
    livenetNetwork ∈ State.initial.networks ∧
    get State.initial (ofString livenetNetwork.name) .absent = .network livenetNetwork ∧
    get State.initial (ofString livenetNetwork.alias_) .absent = .network livenetNetwork ∧
    get State.initial (ofNumber livenetNetwork.port) .absent = .network livenetNetwork ∧
    ∀ v ∈ livenetNetwork.scalars,
      get State.initial v .absent = lastHolder State.initial v :=
  ⟨by decide, initial_roundtrip livenetNetwork (by decide)⟩

/-- C3. Overwrite on collision: when `addNetwork(data1)` has returned `d1` and
a later `addNetwork(data2)` returns `d2`, and an indexed value `v` of `d2` is
`===` an indexed value of `d1`, then right after the second call `get(v)` is
`d2`, a descriptor other than `d1`. The collision raises nothing: both calls
are calls that return. -/
theorem overwrite_on_collision (s t : State) (data1 data2 : Data) (d1 d2 : Network)
    (v : Value)
    (h1 : (addNetwork s data1).1 = .ok d1)
    (hlater : Steps (addNetwork s data1).2 t)
    (h2 : (addNetwork t data2).1 = .ok d2)
    (hv : v ∈ d2.scalars)
    (_hshared : ∃ v1 ∈ d1.scalars, strictEq v1 v = true) :
    get (addNetwork t data2).2 v .absent = .network d2 ∧
    d2.ref ≠ d1.ref ∧
    get (addNetwork t data2).2 v .absent ≠ .network d1 := by
  have hget := get_addNetwork_scalar h2 v hv
  have href : d2.ref ≠ d1.ref := by
    have hle := hlater.nextRef_le
    rw [(addNetwork_ok h1).2.2.1] at hle
    rw [addNetwork_ref h1, addNetwork_ref h2]
    omega
  refine ⟨hget, href, ?_⟩
  rw [hget]
  intro h
  simp only [Value.network.injEq] at h
  exact href (by rw [h])

/-- C3, on the empty registry: livenet, then litecoin, which reuses the
`scripthash` `0x05`. -/
theorem overwrite_on_collision_witness :
    (addNetwork State.empty livenetData).1 = .ok livenetNetwork ∧
    Steps (addNetwork State.empty livenetData).2 (addNetwork State.empty livenetData).2 ∧
    (addNetwork (addNetwork State.empty livenetData).2 litecoinData).1 =
      .ok (newNetwork (addNetwork State.empty livenetData).2 litecoinData) ∧
    Value.int 0x05 (by decide) ∈
      (newNetwork (addNetwork State.empty livenetData).2 litecoinData).scalars ∧
    (∃ v1 ∈ livenetNetwork.scalars, strictEq v1 (.int 0x05 (by decide)) = true) ∧
    get (addNetwork (addNetwork State.empty livenetData).2 litecoinData).2
      (.int 0x05 (by decide)) .absent =
      .network (newNetwork (addNetwork State.empty livenetData).2 litecoinData) ∧
    (newNetwork (addNetwork State.empty livenetData).2 litecoinData).ref ≠
      livenetNetwork.ref ∧
    get (addNetwork (addNetwork State.empty livenetData).2 litecoinData).2
      (.int 0x05 (by decide)) .absent ≠ .network livenetNetwork :=
  ⟨by decide, Steps.refl _, by decide, by decide, by decide,
    overwrite_on_collision State.empty (addNetwork State.empty livenetData).2 livenetData
      litecoinData livenetNetwork
      (newNetwork (addNetwork State.empty livenetData).2 litecoinData)
      (.int 0x05 (by decide)) (by decide) (Steps.refl _) (by decide) (by decide)
      (by decide)⟩

/-- C4, as stated, fails on the initial registry: livenet has `scripthash`
`0x05`, and after `removeNetwork(livenet)` the call `get(0x05)` still returns
digibyte instead of `undefined`. -/
theorem removal_leaves_shared_value :
    livenetNetwork ∈ State.initial.networks ∧
    Value.int 0x05 (by decide) ∈ livenetNetwork.scalars ∧
    get (removeNetwork State.initial livenetNetwork) (.int 0x05 (by decide)) .absent ≠
      .undefined ∧
    (get (removeNetwork State.initial livenetNetwork)
      (.int 0x05 (by decide)) .absent).networkName = some "digibyte" := by
  decide

/-- C4, amended. In a reachable state, after `removeNetwork(d)` of a registered
descriptor `d`: no restricted `get` returns `d`; no unrestricted `get` returns
`d` under a key other than `__proto__`; and for an indexed value `v` of `d`
whose key is not `__proto__`, the unrestricted `get(v)` is what it was before
the removal when that was not `d` (a descriptor that registered the value
later stays indexed), and otherwise is what `networkMaps` inherits under the
key of `v`, which is `undefined` when `networkMaps` has its first prototype
and the key names no property of `Object.prototype`. -/
theorem removal_correct (s : State) (d : Network) (hs : Reachable s)
    (hd : d ∈ s.networks) :
    (∀ k keys, keys ≠ .absent → get (removeNetwork s d) k keys ≠ .network d) ∧
    (∀ k, toPropertyKey k ≠ "__proto__" →
      get (removeNetwork s d) k .absent ≠ .network d) ∧
    (∀ v ∈ d.scalars, toPropertyKey v ≠ "__proto__" →
      get (removeNetwork s d) v .absent =
        if get s v .absent = .network d then inherited s (toPropertyKey v)
        else get s v .absent) ∧
    (∀ v ∈ d.scalars, toPropertyKey v ≠ "__proto__" → get s v .absent = .network d →
      s.prototype = none → toPropertyKey v ∉ objectPrototypeKeys →
      get (removeNetwork s d) v .absent = .undefined) := by
  have hinv := hs.inv
  have hinv2 := hinv.remove d
  have hnet := removeNetwork_networks hinv d
  have hnot : ∀ k keys, get (removeNetwork s d) k keys = .network d →
      keys = .absent ∧ toPropertyKey k = "__proto__" := by
    intro k keys hget
    rcases get_eq_network hinv2 k keys d hget with h1 | h1 | h1
    · have hreg := h1.2
      rw [h1.1, isRegistered_network, hnet] at hreg
      obtain ⟨n, hn, hnd⟩ := hreg
      have := (List.mem_filter.1 hn).2
      simp [hnd] at this
    · rw [hnet] at h1
      have := (List.mem_filter.1 h1).2
      simp at this
    · exact ⟨h1.1, h1.2.1⟩
  have hexact : ∀ v ∈ d.scalars, toPropertyKey v ≠ "__proto__" →
      get (removeNetwork s d) v .absent =
        if get s v .absent = .network d then inherited s (toPropertyKey v)
        else get s v .absent := by
    intro v hv hp
    have hsc := ((mem_scalars d v).1 hv).1
    rw [get_absent _ v (isRegistered_of_isScalar _ v hsc),
      get_absent _ v (isRegistered_of_isScalar _ v hsc), readKey_of_ne _ _ hp,
      readKey_of_ne _ _ hp]
    show (match deleteKeys d s.networkMaps (toPropertyKey v) with
      | some n => Value.network n
      | none => inherited s (toPropertyKey v)) = _
    unfold deleteKeys
    cases hm : s.networkMaps (toPropertyKey v) with
    | none =>
      simp only
      rw [if_neg (inherited_ne_network s _ d)]
    | some n =>
      by_cases hn : n.ref = d.ref
      · have hnd : n = d := hinv.eq_of_ref (hinv.indexed _ n hm).1 hd hn
        simp [strictEq_network, hnd]
      · have hnd : ¬ n = d := fun h => hn (by rw [h])
        simp [strictEq_network, hn, hnd]
  refine ⟨?_, ?_, hexact, ?_⟩
  · intro k keys hkeys hget
    exact hkeys (hnot k keys hget).1
  · intro k hk hget
    exact hk (hnot k .absent hget).2
  · intro v hv hp hget hproto hkey
    rw [hexact v hv hp, if_pos hget, inherited_undefined s _ hproto hkey]

/-- C4, amended, on the initial registry and livenet: `get('livenet')` is
`undefined` after the removal, `get(0x05)` is still digibyte. -/
theorem removal_correct_witness :
    Reachable State.initial ∧ livenetNetwork ∈ State.initial.networks ∧
    (∀ k keys, keys ≠ .absent →
      get (removeNetwork State.initial livenetNetwork) k keys ≠ .network livenetNetwork) ∧
    get (removeNetwork State.initial livenetNetwork) (.str "livenet") .absent = .undefined ∧
    get (removeNetwork State.initial livenetNetwork) (.int 0x05 (by decide)) .absent =
      get State.initial (.int 0x05 (by decide)) .absent :=
  ⟨reachable_initial, by decide,
    (removal_correct State.initial livenetNetwork reachable_initial (by decide)).1,
    (removal_correct State.initial livenetNetwork reachable_initial (by decide)).2.2.2
      (.str "livenet") (by decide) (by decide) (by decide) (by decide) (by decide),
    ((removal_correct State.initial livenetNetwork reachable_initial (by decide)).2.2.1
      (.int 0x05 (by decide)) (by decide) (by decide)).trans (by decide)⟩

/-- C5: what holds, and where the claim fails. In every state `get(d, keys)` of
a registered descriptor `d` returns `d`, with or without a field restriction,
and so `get(get(k)) = get(k)` whenever `get(k)` is a registered descriptor. But
`get(k)` can be a descriptor that is no longer registered: once a network with
the alias `__proto__` has been registered and removed on the initial registry,
`get('__proto__')` is still that descriptor, the prototype of `networkMaps`,
and `get` of it is `undefined`. -/
theorem get_identity :
    (∀ (s : State) (d : Network) (keys : Keys), d ∈ s.networks →
      get s (.network d) keys = .network d) ∧
    (∀ (s : State) (k : Value) (keys keys2 : Keys) (d : Network),
      get s k keys = .network d → d ∈ s.networks →
      get s (get s k keys) keys2 = get s k keys) ∧
    ((addNetwork State.initial fooProtoData).1 =
        .ok (newNetwork State.initial fooProtoData) ∧
      get (removeNetwork (addNetwork State.initial fooProtoData).2
          (newNetwork State.initial fooProtoData)) (.str "__proto__") .absent =
        .network (newNetwork State.initial fooProtoData) ∧
      get (removeNetwork (addNetwork State.initial fooProtoData).2
          (newNetwork State.initial fooProtoData))
        (get (removeNetwork (addNetwork State.initial fooProtoData).2
          (newNetwork State.initial fooProtoData)) (.str "__proto__") .absent) .absent =
        .undefined) := by
  refine ⟨?_, ?_, by decide⟩
  · intro s d keys hd
    exact get_registered s (.network d) keys ((isRegistered_network s d).2 ⟨d, hd, rfl⟩)
  · intro s k keys keys2 d hget hd
    rw [hget]
    exact get_registered s (.network d) keys2 ((isRegistered_network s d).2 ⟨d, hd, rfl⟩)

/-- C5, on the initial registry: livenet is returned as it is, and
`get(get('mainnet')) = get('mainnet')`. -/
theorem get_identity_witness :
    livenetNetwork ∈ State.initial.networks ∧
    get State.initial (.network livenetNetwork) (.single .port) = .network livenetNetwork ∧
    get State.initial (.str "mainnet") .absent = .network livenetNetwork ∧
    get State.initial (get State.initial (.str "mainnet") .absent) .absent =
      get State.initial (.str "mainnet") .absent :=
  ⟨by decide, get_identity.1 State.initial livenetNetwork (.single .port) (by decide),
    by decide,
    get_identity.2.1 State.initial (.str "mainnet") .absent .absent livenetNetwork
      (by decide) (by decide)⟩

/-- C6, as stated, fails in the scenario of the specification: after
`addNetwork` of testcoin on the initial registry the descriptor has the magic
bytes `aa bb cc dd`, and `get(m, 'networkMagic')` for a byte sequence `m` with
these four bytes that is another object than the one of the descriptor returns
`undefined`, because `===` compares byte sequences by identity. And the
unrestricted `get(m)` does return a descriptor when the string `m` turns into
is an indexed name: for a network named `abcd` with the magic `0x61626364`,
whose bytes read `abcd`, it returns that network. -/
theorem magic_lookup_by_content_fails :
    (addNetwork State.initial testcoinData).1 = .ok (newNetwork State.initial testcoinData) ∧
    (newNetwork State.initial testcoinData).networkMagic.bytes = [0xaa, 0xbb, 0xcc, 0xdd] ∧
    (newNetwork State.initial testcoinData).networkMagic.ref ≠ 11 ∧
    get (addNetwork State.initial testcoinData).2
      (.buffer { ref := 11, bytes := [0xaa, 0xbb, 0xcc, 0xdd] }) (.single .networkMagic) =
      .undefined ∧
    (addNetwork State.initial abcdData).1 = .ok (newNetwork State.initial abcdData) ∧
    (newNetwork State.initial abcdData).networkMagic.bytes = [0x61, 0x62, 0x63, 0x64] ∧
    get (addNetwork State.initial abcdData).2
      (.buffer { ref := 11, bytes := [0x61, 0x62, 0x63, 0x64] }) .absent =
      .network (newNetwork State.initial abcdData) := by
  decide

/-- C6, amended. For the descriptor `d` that `addNetwork(data)` returns in a
reachable state, `get(d.networkMagic, 'networkMagic')`, called with the byte
sequence of the descriptor itself, returns `d`; a byte sequence `m` that is
not the `networkMagic` object of a registered descriptor is not found by
`get(m, 'networkMagic')`, whatever its bytes; and the unrestricted `get(m)`
reads `networkMaps` under the text the bytes of `m` encode: when that text is
not `__proto__` and is the property key of no indexed value of a registered
descriptor, `get(m)` is what `networkMaps` inherits under it, which is
`undefined` when `networkMaps` has its first prototype and the text names no
property of `Object.prototype`. -/
theorem magic_lookup_by_identity (s : State) (data : Data) (d : Network)
    (hs : Reachable s) (hr : (addNetwork s data).1 = .ok d) :
    get (addNetwork s data).2 (.buffer d.networkMagic) (.single .networkMagic) =
      .network d ∧
    (∀ m : Buffer, (∀ n ∈ (addNetwork s data).2.networks, n.networkMagic.ref ≠ m.ref) →
      get (addNetwork s data).2 (.buffer m) (.single .networkMagic) = .undefined) ∧
    (∀ m : Buffer, toPropertyKey (.buffer m) ≠ "__proto__" →
      (∀ n ∈ (addNetwork s data).2.networks, ∀ v ∈ n.scalars,
        toPropertyKey v ≠ toPropertyKey (.buffer m)) →
      get (addNetwork s data).2 (.buffer m) .absent =
        inherited (addNetwork s data).2 (toPropertyKey (.buffer m)) ∧
      ((addNetwork s data).2.prototype = none →
        toPropertyKey (.buffer m) ∉ objectPrototypeKeys →
        get (addNetwork s data).2 (.buffer m) .absent = .undefined)) := by
  have hinv := hs.inv
  have hinv2 := hinv.add hr
  have hnet := (addNetwork_ok hr).2.1
  refine ⟨?_, ?_, ?_⟩
  · rw [get_single, get_list _ _ _ (isRegistered_buffer _ _), hnet, List.find?_append]
    have hold : s.networks.find?
        (containsArg (.buffer d.networkMagic) [.networkMagic]) = none := by
      rw [List.find?_eq_none]
      intro n hn
      have h1 := hinv.fresh n hn
      have h2 := hinv.magic n hn
      have h3 : n.networkMagic.ref ≠ d.networkMagic.ref := by
        rw [addNetwork_magic_ref hr]
        omega
      simp [containsArg, Network.prop, strictEq, h3]
    rw [hold]
    simp [containsArg, Network.prop, strictEq]
  · intro m hm
    rw [get_single, get_list _ _ _ (isRegistered_buffer _ _)]
    have hnone : (addNetwork s data).2.networks.find?
        (containsArg (.buffer m) [.networkMagic]) = none := by
      rw [List.find?_eq_none]
      intro n hn
      simp [containsArg, Network.prop, strictEq, hm n hn]
    rw [hnone]
  · intro m hp hm
    have hget : get (addNetwork s data).2 (.buffer m) .absent =
        inherited (addNetwork s data).2 (toPropertyKey (.buffer m)) := by
      rw [get_absent _ _ (isRegistered_buffer _ _), readKey_of_ne _ _ hp]
      cases hk : (addNetwork s data).2.networkMaps (toPropertyKey (.buffer m)) with
      | none => rfl
      | some n =>
        obtain ⟨hmem, f, hsc, hkey⟩ := hinv2.indexed _ n hk
        exact absurd hkey (hm n hmem _ ((mem_scalars n _).2 ⟨hsc, f, rfl⟩))
    refine ⟨hget, ?_⟩
    intro hproto hkey
    rw [hget, inherited_undefined _ _ hproto hkey]

/-- C6, amended, in the scenario of the specification: testcoin on the initial
registry, and a second byte sequence with the bytes `aa bb cc dd`. -/
theorem magic_lookup_by_identity_witness :
    Reachable State.initial ∧
    (addNetwork State.initial testcoinData).1 = .ok (newNetwork State.initial testcoinData) ∧
    get (addNetwork State.initial testcoinData).2
      (.buffer (newNetwork State.initial testcoinData).networkMagic)
      (.single .networkMagic) = .network (newNetwork State.initial testcoinData) ∧
    get (addNetwork State.initial testcoinData).2
      (.buffer { ref := 11, bytes := [0xaa, 0xbb, 0xcc, 0xdd] }) (.single .networkMagic) =
      .undefined ∧
    get (addNetwork State.initial testcoinData).2
      (.buffer { ref := 11, bytes := [0xaa, 0xbb, 0xcc, 0xdd] }) .absent = .undefined :=
  ⟨reachable_initial, by decide,
    (magic_lookup_by_identity State.initial testcoinData
      (newNetwork State.initial testcoinData) reachable_initial (by decide)).1,
    (magic_lookup_by_identity State.initial testcoinData
      (newNetwork State.initial testcoinData) reachable_initial (by decide)).2.1 { ref := 11, bytes := [0xaa, 0xbb, 0xcc, 0xdd] } (by decide),
    ((magic_lookup_by_identity State.initial testcoinData
      (newNetwork State.initial testcoinData) reachable_initial
      (by decide)).2.2 { ref := 11, bytes := [0xaa, 0xbb, 0xcc, 0xdd] } (by decide)
      (by decide)).2 (by decide) (by decide)⟩

/-- C7. Registration indexes every scalar field: right after `addNetwork(data)`
has returned `d`, the unrestricted `get(v)` returns `d` for every property of
`d` whose value `v` is neither `undefined` nor an object, that is, for
every defined string or number among name, alias, pubkeyhash, privatekey,
scripthash, xpubkey, xprivkey and port. In the scenario of the specification
`get('testcoin')`, `get(0x1a, 'pubkeyhash')` and `get(9000)` all return the
descriptor of testcoin. -/
theorem addNetwork_indexes_scalars :
    (∀ (s : State) (data : Data) (d : Network) (f : Field),
      (addNetwork s data).1 = .ok d → isScalar (d.prop f) = true →
      get (addNetwork s data).2 (d.prop f) .absent = .network d) ∧
    (∀ (s : State) (data : Data) (f : Field),
      isScalar ((newNetwork s data).prop f) = true ↔
        (f ∈ [Field.name, .alias_, .pubkeyhash, .privatekey, .scripthash, .xpubkey,
            .xprivkey, .port] ∧
          (newNetwork s data).prop f ≠ .undefined)) ∧
    (addNetwork State.initial testcoinData).1 = .ok (newNetwork State.initial testcoinData) ∧
    get (addNetwork State.initial testcoinData).2 (.str "testcoin") .absent =
      .network (newNetwork State.initial testcoinData) ∧
    get (addNetwork State.initial testcoinData).2 (.int 0x1a (by decide))
      (.single .pubkeyhash) = .network (newNetwork State.initial testcoinData) ∧
    get (addNetwork State.initial testcoinData).2 (.int 9000 (by decide)) .absent =
      .network (newNetwork State.initial testcoinData) := by
  refine ⟨?_, ?_, by decide, by decide, by decide, by decide⟩
  · intro s data d f hr hf
    exact get_addNetwork_scalar hr _ ((mem_scalars _ _).2 ⟨hf, f, rfl⟩)
  · intro s data f
    cases f <;> simp [Network.prop, isScalar_ofString, isScalar_ofNumber, isScalar_ofArray,
      isScalar_buffer]

/-- C7, for testcoin on the initial registry and its port. -/
theorem addNetwork_indexes_scalars_witness :
    (addNetwork State.initial testcoinData).1 = .ok (newNetwork State.initial testcoinData) ∧
    isScalar ((newNetwork State.initial testcoinData).prop .port) = true ∧
    get (addNetwork State.initial testcoinData).2
      ((newNetwork State.initial testcoinData).prop .port) .absent =
      .network (newNetwork State.initial testcoinData) :=
  ⟨by decide, by decide,
    addNetwork_indexes_scalars.1 State.initial testcoinData _ .port (by decide)
      (by decide)⟩

/-- C8: what holds, and where the claim fails. A call `addNetwork(data)` that
returns `d` performs no validation: the name, alias, pubkeyhash, privatekey,
scripthash, xpubkey, xprivkey, port and dnsSeeds of `d` are those of `data`,
whatever their range, and `networks` is what it was, followed by `d`. The call
returns whenever `networkMaps` has its first prototype and no indexed value of
`data` has the key `__proto__`. But a call can raise: on the initial registry
`addNetwork` of a network with the name `__proto__` and the alias `name`
raises a `TypeError` on the key `name`, and leaves `networks` without the new
descriptor. -/
theorem addNetwork_appends :
    (∀ (s : State) (data : Data) (d : Network), (addNetwork s data).1 = .ok d →
      d.name = data.name ∧
      d.alias_ = data.alias_ ∧
      d.pubkeyhash = data.pubkeyhash ∧
      d.privatekey = data.privatekey ∧
      d.scripthash = data.scripthash ∧
      d.xpubkey = data.xpubkey ∧
      d.xprivkey = data.xprivkey ∧
      d.port = data.port ∧
      d.dnsSeeds = data.dnsSeeds ∧
      (addNetwork s data).2.networks = s.networks ++ [d]) ∧
    (∀ (s : State) (data : Data), s.prototype = none →
      (∀ v ∈ (newNetwork s data).scalars, toPropertyKey v ≠ "__proto__") →
      (addNetwork s data).1 = .ok (newNetwork s data)) ∧
    ((addNetwork State.initial protoNameData).1 = .error (.readOnly "name") ∧
      (addNetwork State.initial protoNameData).2.networks = State.initial.networks ∧
      (addNetwork State.initial protoNameData).2.prototype =
        some (newNetwork State.initial protoNameData)) := by
  refine ⟨?_, ?_, by decide⟩
  · intro s data d hr
    obtain ⟨hd, hnet, _⟩ := addNetwork_ok hr
    subst hd
    exact ⟨rfl, rfl, rfl, rfl, rfl, rfl, rfl, rfl, rfl, hnet⟩
  · intro s data hp hv
    have hvs : ∀ v ∈ (newNetwork s data).values, isScalar v = true →
        toPropertyKey v ≠ "__proto__" := by
      intro v hmem hsc
      exact hv v (List.mem_filter.2 ⟨hmem, hsc⟩)
    obtain ⟨s2, hs2⟩ := eachValue_returns (newNetwork s data) (newNetwork s data).values
      { s with nextRef := s.nextRef + 1 } hp hvs
    unfold addNetwork
    simp only [hs2]

/-- C8, for testcoin on the initial registry, with a `pubkeyhash` of 300: the
call returns and the descriptor keeps the value. -/
theorem addNetwork_appends_witness :
    State.initial.prototype = none ∧
    (∀ v ∈ (newNetwork State.initial
        { testcoinData with pubkeyhash := numeral 300 (by decide) }).scalars,
      toPropertyKey v ≠ "__proto__") ∧
    (addNetwork State.initial { testcoinData with pubkeyhash := numeral 300 (by decide) }).1 =
      .ok (newNetwork State.initial
        { testcoinData with pubkeyhash := numeral 300 (by decide) }) ∧
    (newNetwork State.initial
        { testcoinData with pubkeyhash := numeral 300 (by decide) }).pubkeyhash =
      numeral 300 (by decide) ∧
    (addNetwork State.initial
        { testcoinData with pubkeyhash := numeral 300 (by decide) }).2.networks =
      State.initial.networks ++
        [newNetwork State.initial { testcoinData with pubkeyhash := numeral 300 (by decide) }] :=
  ⟨by decide, by decide,
    addNetwork_appends.2.1 State.initial _ (by decide) (by decide),
    rfl,
    (addNetwork_appends.1 State.initial _ _
      (addNetwork_appends.2.1 State.initial
        { testcoinData with pubkeyhash := numeral 300 (by decide) } (by decide)
        (by decide))).2.2.2.2.2.2.2.2.2⟩

/-- C9. Unregistering an unknown descriptor is a no-op: in a reachable state,
`removeNetwork(d)` of a descriptor `d` that no element of `networks` is `===`
to leaves `networks` and `networkMaps` as they were, so that every call of
`get` returns what it returned before. The function has no statement that
raises. -/
theorem removeNetwork_unknown (s : State) (d : Network) (hs : Reachable s)
    (hd : ∀ n ∈ s.networks, n.ref ≠ d.ref) :
    (removeNetwork s d).networks = s.networks ∧
    (removeNetwork s d).networkMaps = s.networkMaps ∧
    (removeNetwork s d).prototype = s.prototype ∧
    ∀ k keys, get (removeNetwork s d) k keys = get s k keys := by
  have hnet : (removeNetwork s d).networks = s.networks := spliceLoop_of_absent d s.networks hd
  have hmaps : (removeNetwork s d).networkMaps = s.networkMaps := by
    funext k
    show deleteKeys d s.networkMaps k = s.networkMaps k
    unfold deleteKeys
    cases hm : s.networkMaps k with
    | none => rfl
    | some n =>
      have hn := hd n (hs.inv.indexed k n hm).1
      simp [strictEq_network, hn]
  have heq : removeNetwork s d = s := by
    cases s with
    | mk networks networkMaps prototype nextRef =>
      simp only [removeNetwork, State.mk.injEq, and_true]
      exact ⟨hnet, hmaps⟩
  refine ⟨hnet, hmaps, rfl, ?_⟩
  intro k keys
  rw [heq]

/-- C9, on the initial registry once livenet is removed: removing livenet a
second time changes nothing. -/
theorem removeNetwork_unknown_witness :
    Reachable (removeNetwork State.initial livenetNetwork) ∧
    (∀ n ∈ (removeNetwork State.initial livenetNetwork).networks,
      n.ref ≠ livenetNetwork.ref) ∧
    (removeNetwork (removeNetwork State.initial livenetNetwork) livenetNetwork).networks =
      (removeNetwork State.initial livenetNetwork).networks ∧
    (removeNetwork (removeNetwork State.initial livenetNetwork) livenetNetwork).networkMaps =
      (removeNetwork State.initial livenetNetwork).networkMaps ∧
    (removeNetwork (removeNetwork State.initial livenetNetwork) livenetNetwork).prototype =
      (removeNetwork State.initial livenetNetwork).prototype ∧
    ∀ k keys,
      get (removeNetwork (removeNetwork State.initial livenetNetwork) livenetNetwork) k keys =
        get (removeNetwork State.initial livenetNetwork) k keys :=
  ⟨Steps.remove livenetNetwork reachable_initial, by decide,
    removeNetwork_unknown (removeNetwork State.initial livenetNetwork) livenetNetwork
      (Steps.remove livenetNetwork reachable_initial) (by decide)⟩

/-- C10. Named accessors: on the initial registry each of the ten exported
accessors is `get` of its name, is a registered descriptor and has that name;
`mainnet` and `defaultNetwork` are the livenet descriptor, the one the first
call of `addNetwork` returned, and `get('mainnet')` returns it too. -/
theorem exports_named_accessors :
    (exports.livenet = get State.initial (.str "livenet") .absent ∧
      isRegistered State.initial exports.livenet = true ∧
      exports.livenet.networkName = some "livenet") ∧
    (exports.testnet = get State.initial (.str "testnet") .absent ∧
      isRegistered State.initial exports.testnet = true ∧
      exports.testnet.networkName = some "testnet") ∧
    (exports.dogecoin = get State.initial (.str "dogecoin") .absent ∧
      isRegistered State.initial exports.dogecoin = true ∧
      exports.dogecoin.networkName = some "dogecoin") ∧
    (exports.litecoin = get State.initial (.str "litecoin") .absent ∧
      isRegistered State.initial exports.litecoin = true ∧
      exports.litecoin.networkName = some "litecoin") ∧
    (exports.dash = get State.initial (.str "dash") .absent ∧
      isRegistered State.initial exports.dash = true ∧
      exports.dash.networkName = some "dash") ∧
    (exports.peercoin = get State.initial (.str "peercoin") .absent ∧
      isRegistered State.initial exports.peercoin = true ∧
      exports.peercoin.networkName = some "peercoin") ∧
    (exports.namecoin = get State.initial (.str "namecoin") .absent ∧
      isRegistered State.initial exports.namecoin = true ∧
      exports.namecoin.networkName = some "namecoin") ∧
    (exports.digibyte = get State.initial (.str "digibyte") .absent ∧
      isRegistered State.initial exports.digibyte = true ∧
      exports.digibyte.networkName = some "digibyte") ∧
    (exports.blackcoin = get State.initial (.str "blackcoin") .absent ∧
      isRegistered State.initial exports.blackcoin = true ∧
      exports.blackcoin.networkName = some "blackcoin") ∧
    (exports.bitcoindark = get State.initial (.str "bitcoindark") .absent ∧
      isRegistered State.initial exports.bitcoindark = true ∧
      exports.bitcoindark.networkName = some "bitcoindark") ∧
    exports.livenet = .network livenetNetwork ∧
    exports.mainnet = .network livenetNetwork ∧
    exports.defaultNetwork = .network livenetNetwork ∧
    get State.initial (.str "mainnet") .absent = .network livenetNetwork := by
  decide

/-- C11. Network magic encoding: for every `data` whose `networkMagic` is an
integer `n` below `2^32`, the descriptor `addNetwork(data)` builds, which is
the one it returns when it returns, has a `networkMagic` of exactly four bytes
`b0 b1 b2 b3`, each below 256, most significant first:
`n = b0 * 2^24 + b1 * 2^16 + b2 * 2^8 + b3`. Livenet, registered with
`0xf9beb4d9`, has the bytes `f9 be b4 d9`; testnet, registered with
`0x0b110907`, has the bytes `0b 11 09 07`. -/
theorem networkMagic_big_endian :
    (∀ (s : State) (data : Data), data.networkMagic < 2 ^ 32 →
      (∀ d, (addNetwork s data).1 = .ok d → d = newNetwork s data) ∧
      ∃ b0 b1 b2 b3, (newNetwork s data).networkMagic.bytes = [b0, b1, b2, b3] ∧
        b0 < 256 ∧ b1 < 256 ∧ b2 < 256 ∧ b3 < 256 ∧
        data.networkMagic = b0 * 2 ^ 24 + b1 * 2 ^ 16 + b2 * 2 ^ 8 + b3) ∧
    livenetData.networkMagic = 0xf9beb4d9 ∧
    (addNetwork State.empty livenetData).1 = .ok livenetNetwork ∧
    livenetNetwork.networkMagic.bytes = [0xf9, 0xbe, 0xb4, 0xd9] ∧
    testnetData.networkMagic = 0x0b110907 ∧
    (addNetwork (addNetwork State.empty livenetData).2 testnetData).1 =
      .ok (newNetwork (addNetwork State.empty livenetData).2 testnetData) ∧
    (newNetwork (addNetwork State.empty livenetData).2 testnetData).networkMagic.bytes =
      [0x0b, 0x11, 0x09, 0x07] ∧
    State.initial.networks.map (fun d => (d.name, d.networkMagic.bytes)) =
      [(some "livenet", [0xf9, 0xbe, 0xb4, 0xd9]), (some "testnet", [0x0b, 0x11, 0x09, 0x07]),
       (some "dogecoin", [0xc0, 0xc0, 0xc0, 0xc0]), (some "litecoin", [0xfb, 0xc0, 0xb6, 0xdb]),
       (some "dash", [0xbf, 0x0c, 0x6b, 0xbd]), (some "peercoin", [0xbf, 0x0c, 0x6b, 0xbd]),
       (some "namecoin", [0xf9, 0xbe, 0xb4, 0xfe]), (some "digibyte", [0xfa, 0xc3, 0xb6, 0xda]),
       (some "blackcoin", [0x70, 0x35, 0x22, 0x05]),
       (some "bitcoindark", [0xe4, 0xc2, 0xd8, 0xe6])] := by
  refine ⟨?_, by decide, by decide, by decide, by decide, by decide, by decide, by decide⟩
  intro s data hn
  refine ⟨fun d hd => (addNetwork_ok hd).1, data.networkMagic / 2 ^ 24 % 256,
    data.networkMagic / 2 ^ 16 % 256, data.networkMagic / 2 ^ 8 % 256,
    data.networkMagic % 256, rfl, ?_, ?_, ?_, ?_, ?_⟩
  · exact Nat.mod_lt _ (by decide)
  · exact Nat.mod_lt _ (by decide)
  · exact Nat.mod_lt _ (by decide)
  · exact Nat.mod_lt _ (by decide)
  · simp only [Nat.reducePow] at hn ⊢
    omega

/-- C11, for the magic of the scenario of the specification, `0xaabbccdd`: the
call returns the descriptor it built, with four bytes. -/
theorem networkMagic_big_endian_witness :
    testcoinData.networkMagic < 2 ^ 32 ∧
    (addNetwork State.initial testcoinData).1 = .ok (newNetwork State.initial testcoinData) ∧
    ∃ b0 b1 b2 b3,
      (newNetwork State.initial testcoinData).networkMagic.bytes = [b0, b1, b2, b3] ∧
      b0 < 256 ∧ b1 < 256 ∧ b2 < 256 ∧ b3 < 256 ∧
      testcoinData.networkMagic = b0 * 2 ^ 24 + b1 * 2 ^ 16 + b2 * 2 ^ 8 + b3 :=
  ⟨by decide, by decide,
    (networkMagic_big_endian.1 State.initial testcoinData (by decide)).2⟩

/-- C12. Descriptor immutability: once `addNetwork` has returned `d` in a
reachable state, whatever calls of `addNetwork`, `removeNetwork` and `get`
follow, the object with the identity of `d` has the fields of `d` wherever it
is met: in `networks`, in `networkMaps`, as the prototype of `networkMaps`,
and as a result of `get` (for an argument that is not another record under the
identity of `d`). An attempted assignment to a field of `d` leaves `d` and the
registry as they were, so every later `get` returns what it would have
returned. -/
theorem descriptor_immutable (s t : State) (data : Data) (d : Network) (hs : Reachable s)
    (hr : (addNetwork s data).1 = .ok d) (ht : Steps (addNetwork s data).2 t) :
    (∀ n ∈ t.networks, n.ref = d.ref → n = d) ∧
    (∀ k n, t.networkMaps k = some n → n.ref = d.ref → n = d) ∧
    (∀ p, t.prototype = some p → p.ref = d.ref → p = d) ∧
    (∀ k keys n, (∀ m, k = .network m → m.ref = d.ref → m = d) →
      get t k keys = .network n → n.ref = d.ref → n = d) ∧
    (∀ key value,
      d.assign key value = d ∧
      assignField t d key value = t ∧
      ∀ k keys, get (assignField t d key value) k keys = get t k keys) := by
  have hinv := hs.inv
  have hinv1 := hinv.add hr
  have hinvt := hinv1.steps ht
  have hd : d ∈ (addNetwork s data).2.networks := addNetwork_mem hr
  have href := addNetwork_ref hr
  have hnext := (addNetwork_ok hr).2.2.1
  have hmem : ∀ n ∈ t.networks, n.ref = d.ref → n = d := by
    intro n hn hnd
    rcases ht.mem_networks hinv1 n hn with h1 | h1
    · exact hinv1.eq_of_ref h1 hd hnd
    · rw [hnext, hnd, href] at h1
      omega
  have hproto : ∀ p, t.prototype = some p → p.ref = d.ref → p = d := by
    intro p hp hpd
    rcases ht.prototype_cases p hp with h1 | h1
    · rw [(addNetwork_ok hr).2.2.2.2] at h1
      split at h1
      · simp only [Option.some.injEq] at h1
        exact h1.symm
      · have := hinv.proto p h1
        rw [hpd, href] at this
        omega
    · rw [hnext, hpd, href] at h1
      omega
  refine ⟨hmem, ?_, hproto, ?_, ?_⟩
  · intro k n hk hnd
    exact hmem n (hinvt.indexed k n hk).1 hnd
  · intro k keys n hk hget hnd
    rcases get_eq_network hinvt k keys n hget with h1 | h1 | h1
    · exact hk n h1.1 hnd
    · exact hmem n h1 hnd
    · exact hproto n h1.2.2 hnd
  · intro key value
    refine ⟨rfl, assignField_eq _ _ _ _, ?_⟩
    intro k keys
    rw [assignField_eq]

/-- C12, on the initial registry: testcoin is registered, then livenet is
removed; the descriptor of testcoin is met unchanged. -/
theorem descriptor_immutable_witness :
    Reachable State.initial ∧
    (addNetwork State.initial testcoinData).1 = .ok (newNetwork State.initial testcoinData) ∧
    Steps (addNetwork State.initial testcoinData).2
      (removeNetwork (addNetwork State.initial testcoinData).2 livenetNetwork) ∧
    (∀ n ∈ (removeNetwork (addNetwork State.initial testcoinData).2 livenetNetwork).networks,
      n.ref = (newNetwork State.initial testcoinData).ref →
      n = newNetwork State.initial testcoinData) ∧
    get (removeNetwork (addNetwork State.initial testcoinData).2 livenetNetwork)
      (.str "testcoin") .absent = .network (newNetwork State.initial testcoinData) :=
  ⟨reachable_initial, by decide, Steps.remove livenetNetwork (Steps.refl _),
    (descriptor_immutable State.initial
      (removeNetwork (addNetwork State.initial testcoinData).2 livenetNetwork) testcoinData
      (newNetwork State.initial testcoinData) reachable_initial (by decide)
      (Steps.remove livenetNetwork (Steps.refl _))).1,
    by decide⟩

/-- C13, as stated, fails at a sequence that holds livenet twice in a row:
`removeNetwork` of livenet leaves one of the two in `networks`, where the claim
has none left. -/
theorem remove_adjacent_duplicates :
    duplicateState.networks = [livenetNetwork, livenetNetwork] ∧
    (removeNetwork duplicateState livenetNetwork).networks = [livenetNetwork] ∧
    livenetNetwork ∈ (removeNetwork duplicateState livenetNetwork).networks := by
  decide

/-- C13, amended. For every sequence `networks`, `removeNetwork(d)` only takes
elements out, so what is left keeps its order; and when `d` does not occur
twice in a row, which holds of every sequence without duplicates, and so of
every reachable state, `networks` after the call is `networks` before it
without the elements that are `=== d`: no element identical to `d` is left,
and every other element stays. Two occurrences with other descriptors between
them are both taken out. -/
theorem remove_all_occurrences (s : State) (d : Network)
    (h : twiceInARow d s.networks = false) :
    (removeNetwork s d).networks = s.networks.filter (fun x => x.ref != d.ref) ∧
    (∀ n ∈ (removeNetwork s d).networks, strictEq (.network n) (.network d) = false) ∧
    (∀ n ∈ s.networks, n.ref ≠ d.ref → n ∈ (removeNetwork s d).networks) ∧
    (removeNetwork s d).networks.Sublist s.networks ∧
    (∀ (t : State) (e : Network), (removeNetwork t e).networks.Sublist t.networks) ∧
    (∀ (t : State) (e : Network), (t.networks.map (fun n => n.ref)).Nodup →
      twiceInARow e t.networks = false) ∧
    (∀ (t : State) (e : Network), Reachable t → twiceInARow e t.networks = false) := by
  have hnet : (removeNetwork s d).networks = s.networks.filter (fun x => x.ref != d.ref) :=
    spliceLoop_of_not_twice d s.networks h
  refine ⟨hnet, ?_, ?_, spliceLoop_sublist d s.networks,
    fun t e => spliceLoop_sublist e t.networks,
    fun t e hn => twiceInARow_of_nodup e t.networks hn,
    fun t e ht => twiceInARow_of_nodup e t.networks ht.inv.nodup⟩
  · intro n hn
    rw [hnet] at hn
    have h2 := (List.mem_filter.1 hn).2
    simp only [bne_iff_ne, ne_eq] at h2
    simp [strictEq_network, h2]
  · intro n hn hne
    rw [hnet]
    exact List.mem_filter.2 ⟨hn, by simpa using hne⟩

/-- C13, amended, at a sequence that holds livenet twice, with testnet between
the two: both occurrences go. -/
theorem remove_all_occurrences_witness :
    twiceInARow livenetNetwork spacedState.networks = false ∧
    spacedState.networks =
      [livenetNetwork, newNetwork (addNetwork State.empty livenetData).2 testnetData,
        livenetNetwork] ∧
    (removeNetwork spacedState livenetNetwork).networks =
      spacedState.networks.filter (fun x => x.ref != livenetNetwork.ref) ∧
    (removeNetwork spacedState livenetNetwork).networks =
      [newNetwork (addNetwork State.empty livenetData).2 testnetData] :=
  ⟨by decide, rfl, (remove_all_occurrences spacedState livenetNetwork (by decide)).1,
    by decide⟩

/-- C14. No-duplicates invariant: in every state that calls of `addNetwork` and
`removeNetwork` produce from the empty registry, and so in every state they
produce from the initial registry of the module, no identity occurs twice in
`networks`, and no descriptor does. -/
theorem networks_nodup :
    (∀ s : State, Reachable s →
      (s.networks.map (fun n => n.ref)).Nodup ∧ s.networks.Nodup) ∧
    (∀ t : State, Steps State.initial t →
      (t.networks.map (fun n => n.ref)).Nodup ∧ t.networks.Nodup) := by
  have h : ∀ s : State, Reachable s →
      (s.networks.map (fun n => n.ref)).Nodup ∧ s.networks.Nodup :=
    fun s hs => ⟨hs.inv.nodup, List.Nodup.of_map _ hs.inv.nodup⟩
  exact ⟨h, fun t ht => h t (Steps.trans reachable_initial ht)⟩

/-- C14, on the initial registry and on the registry that follows the
registration of testcoin. -/
theorem networks_nodup_witness :
    Reachable State.initial ∧
    ((State.initial.networks.map (fun n => n.ref)).Nodup ∧ State.initial.networks.Nodup) ∧
    Steps State.initial (addNetwork State.initial testcoinData).2 ∧
    (((addNetwork State.initial testcoinData).2.networks.map (fun n => n.ref)).Nodup ∧
      (addNetwork State.initial testcoinData).2.networks.Nodup) :=
  ⟨reachable_initial, networks_nodup.1 State.initial reachable_initial,
    Steps.add_returned testcoinData (Steps.refl _) (by decide),
    networks_nodup.2 _ (Steps.add_returned testcoinData (Steps.refl _) (by decide))⟩

/-- C15, as stated, fails on the initial registry. The network registered with
the name `'9000'` has no field whose value is `===` the number `9000`, yet the
unrestricted `get(9000)`, `undefined` before the call, returns the new
descriptor after it, because the number and the string are one property key.
And the network registered with the name `__proto__` and the port `9000` has no
field with the value `'port'`, yet `get('port')`, `undefined` before the call,
is the number `9000` after it: the descriptor became the prototype of
`networkMaps`, which inherits its properties. -/
theorem add_changes_coerced_key :
    (addNetwork State.initial name9000Data).1 = .ok (newNetwork State.initial name9000Data) ∧
    (∀ v ∈ (newNetwork State.initial name9000Data).scalars,
      strictEq v (.int 9000 (by decide)) = false) ∧
    get State.initial (.int 9000 (by decide)) .absent = .undefined ∧
    get (addNetwork State.initial name9000Data).2 (.int 9000 (by decide)) .absent =
      .network (newNetwork State.initial name9000Data) ∧
    (addNetwork State.initial protoPortData).1 =
      .ok (newNetwork State.initial protoPortData) ∧
    (∀ v ∈ (newNetwork State.initial protoPortData).scalars,
      strictEq v (.str "port") = false) ∧
    get State.initial (.str "port") .absent = .undefined ∧
    get (addNetwork State.initial protoPortData).2 (.str "port") .absent =
      .int 9000 (by decide) := by
  decide

/-- C15, amended. Registration touches only the index entries under the
property keys of its indexed values: for every state, every `data` for which
`addNetwork(data)` returns a descriptor `d` none of whose indexed values has
the property key `__proto__`, and every key `k` other than `d` itself, if no
indexed value of `d` has the property key of `k`, the unrestricted `get(k)`
returns after the call what it returned before. The indexed values are defined
and are no objects, so the `dnsSeeds` array, the `networkMagic` byte sequence
and `undefined` fields make no entry; after the registration of testcoin, which
has no alias, `get(undefined)` is still `undefined`. -/
theorem addNetwork_frame (s : State) (data : Data) (d : Network) (k : Value)
    (hr : (addNetwork s data).1 = .ok d)
    (hproto : ∀ v ∈ d.scalars, toPropertyKey v ≠ "__proto__")
    (hnew : strictEq (.network d) k = false)
    (hkey : ∀ v ∈ d.scalars, toPropertyKey v ≠ toPropertyKey k) :
    get (addNetwork s data).2 k .absent = get s k .absent ∧
    (addNetwork s data).2.networkMaps (toPropertyKey k) = s.networkMaps (toPropertyKey k) ∧
    (addNetwork s data).2.prototype = s.prototype ∧
    (∀ v ∈ d.scalars, v ≠ .undefined ∧ isObject v = false) ∧
    isScalar (d.prop .dnsSeeds) = false ∧
    isScalar (d.prop .networkMagic) = false ∧
    get (addNetwork State.initial testcoinData).2 .undefined .absent = .undefined := by
  obtain ⟨_, hnet, _, hm, hp⟩ := addNetwork_ok hr
  have hany : ¬ (toPropertyKey k ≠ "__proto__" ∧ d.values.any
      (fun v => isScalar v && (toPropertyKey v == toPropertyKey k)) = true) := by
    rintro ⟨_, h⟩
    obtain ⟨v, hv, hvk⟩ := (any_scalar_key _ _).1 h
    exact hkey v hv hvk
  have hany2 : ¬ d.values.any
      (fun v => isScalar v && (toPropertyKey v == "__proto__")) = true := by
    intro h
    obtain ⟨v, hv, hvk⟩ := (any_scalar_key _ _).1 h
    exact hproto v hv hvk
  have hmaps : (addNetwork s data).2.networkMaps (toPropertyKey k) =
      s.networkMaps (toPropertyKey k) := by
    rw [hm, if_neg hany]
  have hprototype : (addNetwork s data).2.prototype = s.prototype := by
    rw [hp, if_neg hany2]
  refine ⟨?_, hmaps, hprototype, ?_, ?_, rfl, by decide⟩
  · by_cases hk : isRegistered s k = true
    · have hk2 : isRegistered (addNetwork s data).2 k = true := by
        simp only [isRegistered, hnet, List.any_append, Bool.or_eq_true]
        exact Or.inl hk
      rw [get_registered _ k _ hk, get_registered _ k _ hk2]
    · have hk1 : isRegistered s k = false := by simpa using hk
      have hk2 : isRegistered (addNetwork s data).2 k = false := by
        simp only [isRegistered, hnet, List.any_append, List.any_cons,
          List.any_nil, Bool.or_false, Bool.or_eq_false_iff]
        exact ⟨hk1, hnew⟩
      rw [get_absent _ k hk1, get_absent _ k hk2]
      unfold readKey inherited
      rw [hmaps, hprototype]
  · intro v hv
    have hsc := ((mem_scalars _ v).1 hv).1
    cases v <;> simp [isScalar, isUndefined, isObject] at hsc ⊢
  · exact isScalar_ofArray _

/-- C15, amended, on the initial registry: testcoin and the key `undefined`. -/
theorem addNetwork_frame_witness :
    (addNetwork State.initial testcoinData).1 = .ok (newNetwork State.initial testcoinData) ∧
    (∀ v ∈ (newNetwork State.initial testcoinData).scalars,
      toPropertyKey v ≠ "__proto__") ∧
    strictEq (.network (newNetwork State.initial testcoinData)) .undefined = false ∧
    (∀ v ∈ (newNetwork State.initial testcoinData).scalars,
      toPropertyKey v ≠ toPropertyKey .undefined) ∧
    get (addNetwork State.initial testcoinData).2 .undefined .absent =
      get State.initial .undefined .absent :=
  ⟨by decide, by decide, by decide, by decide,
    (addNetwork_frame State.initial testcoinData (newNetwork State.initial testcoinData)
      .undefined (by decide) (by decide) (by decide) (by decide)).1⟩

/-- C16: what holds, and where the claim fails. In a reachable state every own
property of `networkMaps` leads to an element of `networks`; whenever the
unrestricted `get(k)` returns a descriptor `d` for a key `k` that is no
descriptor and whose property key is not `__proto__`, `d` is in `networks` and
one of its properties name, alias, pubkeyhash, privatekey, scripthash, xpubkey,
xprivkey, port has an indexed value whose property key is that of `k`; and
after `removeNetwork(d)` no own property leads to `d`. But under the key
`__proto__` the index does point at a removed descriptor: once a network with
the name `__proto__` has been registered on the initial registry and removed
again, `get('__proto__')` still returns it, and it is not in `networks`. -/
theorem index_sound :
    (∀ s : State, Reachable s →
      (∀ key n, s.networkMaps key = some n → n ∈ s.networks) ∧
      (∀ k d, (∀ m, k ≠ .network m) → toPropertyKey k ≠ "__proto__" →
        get s k .absent = .network d →
        d ∈ s.networks ∧
        ∃ f ∈ [Field.name, .alias_, .pubkeyhash, .privatekey, .scripthash, .xpubkey,
            .xprivkey, .port],
          isScalar (d.prop f) = true ∧ toPropertyKey (d.prop f) = toPropertyKey k) ∧
      (∀ d key n, (removeNetwork s d).networkMaps key = some n →
        n.ref ≠ d.ref ∧ n ∈ (removeNetwork s d).networks)) ∧
    ((addNetwork State.initial protoData).1 = .ok (newNetwork State.initial protoData) ∧
      get (removeNetwork (addNetwork State.initial protoData).2
          (newNetwork State.initial protoData)) (.str "__proto__") .absent =
        .network (newNetwork State.initial protoData) ∧
      newNetwork State.initial protoData ∉
        (removeNetwork (addNetwork State.initial protoData).2
          (newNetwork State.initial protoData)).networks) := by
  refine ⟨?_, by decide⟩
  intro s hs
  have hinv := hs.inv
  refine ⟨fun key n h => (hinv.indexed key n h).1, ?_, ?_⟩
  · intro k d hk hp hget
    have hreg : isRegistered s k = false := by
      by_contra h
      obtain ⟨m, hm⟩ := isRegistered_eq_true s k (by simpa using h)
      exact hk m hm
    rw [get_absent s k hreg, readKey_of_ne s _ hp] at hget
    cases hm : s.networkMaps (toPropertyKey k) with
    | none =>
      simp only [hm] at hget
      exact absurd hget (inherited_ne_network s _ d)
    | some n =>
      simp only [hm, Value.network.injEq] at hget
      subst hget
      obtain ⟨hmem, f, hsc, hkey⟩ := hinv.indexed _ n hm
      exact ⟨hmem, f, mem_scalar_fields n f hsc, hsc, hkey⟩
  · intro d key n h
    have h2 : deleteKeys d s.networkMaps key = some n := h
    exact ⟨((deleteKeys_eq_some d s.networkMaps key n).1 h2).2,
      ((hinv.remove d).indexed key n h).1⟩

/-- C16, on the initial registry: `get(0x05)` is digibyte, which is registered
and has the `scripthash` `0x05`. -/
theorem index_sound_witness :
    Reachable State.initial ∧
    (∀ k d, (∀ m, k ≠ .network m) → toPropertyKey k ≠ "__proto__" →
      get State.initial k .absent = .network d →
      d ∈ State.initial.networks ∧
      ∃ f ∈ [Field.name, .alias_, .pubkeyhash, .privatekey, .scripthash, .xpubkey,
          .xprivkey, .port],
        isScalar (d.prop f) = true ∧ toPropertyKey (d.prop f) = toPropertyKey k) ∧
    (get State.initial (.int 0x05 (by decide)) .absent).networkName = some "digibyte" :=
  ⟨reachable_initial, (index_sound.1 State.initial reachable_initial).2.1, by decide⟩

/-- C17, as stated, fails on the registry that holds testcoin (port `9000`):
a network with the name `'9000'` is registered and removed again; the number
`9000` is `===` none of its field values, yet `get(9000)`, which returned
testcoin before, returns `undefined` after. -/
theorem add_remove_changes_coerced_key :
    Reachable (addNetwork State.initial testcoinData).2 ∧
    (addNetwork (addNetwork State.initial testcoinData).2 name9000Data).1 =
      .ok (newNetwork (addNetwork State.initial testcoinData).2 name9000Data) ∧
    (∀ v ∈ (newNetwork (addNetwork State.initial testcoinData).2 name9000Data).scalars,
      strictEq v (.int 9000 (by decide)) = false) ∧
    get (addNetwork State.initial testcoinData).2 (.int 9000 (by decide)) .absent =
      .network (newNetwork State.initial testcoinData) ∧
    get (removeNetwork (addNetwork (addNetwork State.initial testcoinData).2 name9000Data).2
        (newNetwork (addNetwork State.initial testcoinData).2 name9000Data))
      (.int 9000 (by decide)) .absent = .undefined :=
  ⟨Steps.add_returned testcoinData reachable_initial (by decide), by decide, by decide,
    by decide, by decide⟩

/-- C17, amended. In a reachable state `S`, after `addNetwork(data)` has
returned a descriptor `d` none of whose indexed values has the property key
`__proto__`, and then `removeNetwork(d)`: `networks` and the prototype of
`networkMaps` are those of `S`; for every indexed value `v` of `d` the
unrestricted `get(v)` finds no entry, even when `get(v)` returned a registered
descriptor in `S`, and is what `networkMaps` inherits under the key of `v`,
which is `undefined` when `networkMaps` has its first prototype and the key
names no property of `Object.prototype`; and `get(k)` is what it was in `S`
for every key `k` whose property key is that of no indexed value of `d`. On the
initial registry `get(8333)` is livenet, and `undefined` once a network with
the port `8333` has been registered and removed. -/
theorem add_remove_forgets (s : State) (data : Data) (d : Network) (hs : Reachable s)
    (hr : (addNetwork s data).1 = .ok d)
    (hp : ∀ v ∈ d.scalars, toPropertyKey v ≠ "__proto__") :
    (removeNetwork (addNetwork s data).2 d).networks = s.networks ∧
    (removeNetwork (addNetwork s data).2 d).prototype = s.prototype ∧
    (∀ v ∈ d.scalars,
      (removeNetwork (addNetwork s data).2 d).networkMaps (toPropertyKey v) = none ∧
      get (removeNetwork (addNetwork s data).2 d) v .absent =
        inherited s (toPropertyKey v)) ∧
    (∀ v ∈ d.scalars, s.prototype = none → toPropertyKey v ∉ objectPrototypeKeys →
      get (removeNetwork (addNetwork s data).2 d) v .absent = .undefined) ∧
    (∀ k, (∀ v ∈ d.scalars, toPropertyKey v ≠ toPropertyKey k) →
      get (removeNetwork (addNetwork s data).2 d) k .absent = get s k .absent) ∧
    get State.initial (.int 8333 (by decide)) .absent = .network livenetNetwork ∧
    get (removeNetwork
        (addNetwork State.initial { testcoinData with port := numeral 8333 (by decide) }).2
        (newNetwork State.initial { testcoinData with port := numeral 8333 (by decide) }))
      (.int 8333 (by decide)) .absent = .undefined := by
  have hinv := hs.inv
  have hnet := add_remove_networks hinv hr
  have hany2 : ¬ d.values.any
      (fun v => isScalar v && (toPropertyKey v == "__proto__")) = true := by
    intro h
    obtain ⟨v, hv, hvk⟩ := (any_scalar_key _ _).1 h
    exact hp v hv hvk
  have hproto : (removeNetwork (addNetwork s data).2 d).prototype = s.prototype := by
    show (addNetwork s data).2.prototype = s.prototype
    rw [(addNetwork_ok hr).2.2.2.2, if_neg hany2]
  have hgone : ∀ v ∈ d.scalars,
      (removeNetwork (addNetwork s data).2 d).networkMaps (toPropertyKey v) = none ∧
      get (removeNetwork (addNetwork s data).2 d) v .absent =
        inherited s (toPropertyKey v) := by
    intro v hv
    have hsc := ((mem_scalars _ v).1 hv).1
    have hmaps : (removeNetwork (addNetwork s data).2 d).networkMaps (toPropertyKey v) =
        none := by
      rw [add_remove_maps hinv hr, if_pos ⟨hp v hv, (any_scalar_key _ _).2 ⟨v, hv, rfl⟩⟩]
    refine ⟨hmaps, ?_⟩
    rw [get_absent _ v (isRegistered_of_isScalar _ v hsc), readKey_of_ne _ _ (hp v hv), hmaps]
    unfold inherited
    rw [hproto]
  refine ⟨hnet, hproto, hgone, ?_, ?_, by decide, by decide⟩
  · intro v hv hnone hkey
    rw [(hgone v hv).2, inherited_undefined s _ hnone hkey]
  · intro k hk
    have hany : ¬ (toPropertyKey k ≠ "__proto__" ∧ d.values.any
        (fun v => isScalar v && (toPropertyKey v == toPropertyKey k)) = true) := by
      rintro ⟨_, h⟩
      obtain ⟨v, hv, hvk⟩ := (any_scalar_key _ _).1 h
      exact hk v hv hvk
    have hmaps := add_remove_maps hinv hr (toPropertyKey k)
    rw [if_neg hany] at hmaps
    exact get_congr s _ k .absent hnet hmaps hproto

/-- C17, amended, on the initial registry and testcoin. -/
theorem add_remove_forgets_witness :
    Reachable State.initial ∧
    (addNetwork State.initial testcoinData).1 = .ok (newNetwork State.initial testcoinData) ∧
    (∀ v ∈ (newNetwork State.initial testcoinData).scalars,
      toPropertyKey v ≠ "__proto__") ∧
    (removeNetwork (addNetwork State.initial testcoinData).2
      (newNetwork State.initial testcoinData)).networks = State.initial.networks ∧
    get (removeNetwork (addNetwork State.initial testcoinData).2
      (newNetwork State.initial testcoinData)) (.str "testcoin") .absent = .undefined :=
  ⟨reachable_initial, by decide, by decide,
    (add_remove_forgets State.initial testcoinData (newNetwork State.initial testcoinData)
      reachable_initial (by decide) (by decide)).1,
    (add_remove_forgets State.initial testcoinData (newNetwork State.initial testcoinData)
      reachable_initial (by decide) (by decide)).2.2.2.1 (.str "testcoin") (by decide)
      (by decide) (by decide)⟩

/-- C18, as stated, fails for a field whose value is `NaN`. The registry that
holds one network, registered with the port `NaN`, is built by `addNetwork`
alone and no two descriptors share a key; the port of the descriptor is a
defined value of a scalar field, and the unrestricted `get(NaN)` returns the
descriptor, but the restricted `get(NaN, 'port')` returns `undefined`, because
`NaN === NaN` is false. -/
theorem lookup_modes_differ_at_nan :
    Built (addNetwork State.empty nanPortData).2 ∧
    UniqueKeys (addNetwork State.empty nanPortData).2 ∧
    newNetwork State.empty nanPortData ∈ (addNetwork State.empty nanPortData).2.networks ∧
    (newNetwork State.empty nanPortData).prop .port = .num .nan ∧
    isScalar ((newNetwork State.empty nanPortData).prop .port) = true ∧
    get (addNetwork State.empty nanPortData).2 (.num .nan) .absent =
      .network (newNetwork State.empty nanPortData) ∧
    get (addNetwork State.empty nanPortData).2 (.num .nan) (.single .port) = .undefined :=
  ⟨Built.add_returns nanPortData Built.empty (by decide), by unfold UniqueKeys; decide,
    by decide, by decide, by decide, by decide, by decide⟩

/-- C18, amended. The two lookup modes agree when indexed values are unique and
are not `NaN`: in a registry built from the empty one by calls of `addNetwork`
alone, in which no two different descriptors have an indexed value with the
same property key, for every element `d` of `networks` and every property `f`
of `d` with an indexed value `v`, the unrestricted `get(v)` returns `d`, and
so does the restricted `get(v, f)` unless `v` is `NaN`. Without uniqueness they
differ: on the initial registry `get(0x0488b21e, 'xpubkey')` is livenet and
`get(0x0488b21e)` is bitcoindark. -/
theorem lookup_modes_agree :
    (∀ s : State, Built s → UniqueKeys s →
      ∀ d ∈ s.networks, ∀ f : Field, isScalar (d.prop f) = true →
        get s (d.prop f) .absent = .network d ∧
        (d.prop f ≠ .num .nan → get s (d.prop f) (.single f) = .network d)) ∧
    Built State.initial ∧
    get State.initial (.int 0x0488b21e (by decide)) (.single .xpubkey) =
      .network livenetNetwork ∧
    (get State.initial (.int 0x0488b21e (by decide)) .absent).networkName =
      some "bitcoindark" := by
  refine ⟨?_, built_initial, by decide, by decide⟩
  intro s hb hu d hd f hf
  obtain ⟨hown, hnoown, hprototype⟩ := hb.complete
  have hinv := hb.reachable.inv
  have hv : d.prop f ∈ d.scalars := (mem_scalars d _).2 ⟨hf, f, rfl⟩
  have hreg := isRegistered_of_isScalar s (d.prop f) hf
  constructor
  · rw [get_absent _ _ hreg]
    by_cases hk : toPropertyKey (d.prop f) = "__proto__"
    · obtain ⟨p, hp⟩ := hnoown d hd _ hv hk
      obtain ⟨hmem, w, hw, hwk⟩ := hprototype p hp
      have hpd : p = d := hu p hmem d hd w hw (d.prop f) hv (hwk.trans hk.symm)
      unfold readKey
      rw [if_pos hk, hp, hpd]
    · obtain ⟨n, hn⟩ := hown d hd _ hv hk
      obtain ⟨hmem, g, hsc, hkey⟩ := hinv.indexed _ n hn
      have hnd : n = d :=
        hu n hmem d hd (n.prop g) ((mem_scalars n _).2 ⟨hsc, g, rfl⟩) (d.prop f) hv hkey
      rw [readKey_of_ne _ _ hk, hn, hnd]
  · intro hnan
    rw [get_single, get_list _ _ _ hreg]
    cases hfind : s.networks.find? (containsArg (d.prop f) [f]) with
    | none =>
      have h1 := List.find?_eq_none.1 hfind d hd
      simp [containsArg, strictEq_self_of_isScalar _ hf hnan] at h1
    | some x =>
      have hx : x ∈ s.networks := List.mem_of_find?_eq_some hfind
      have hmatch := List.find?_some hfind
      simp only [containsArg, List.any_cons, List.any_nil, Bool.or_false] at hmatch
      have hxf : x.prop f = d.prop f := eq_of_strictEq_of_isScalar _ _ hf hmatch
      have hxd : x = d :=
        hu x hx d hd (x.prop f) ((mem_scalars x _).2 ⟨hxf ▸ hf, f, rfl⟩) (d.prop f) hv
          (by rw [hxf])
      rw [hxd]

/-- C18, amended, on the registry that holds livenet and testnet only, whose
indexed values are unique: the port of testnet. -/
theorem lookup_modes_agree_witness :
    Built (addNetwork (addNetwork State.empty livenetData).2 testnetData).2 ∧
    UniqueKeys (addNetwork (addNetwork State.empty livenetData).2 testnetData).2 ∧
    newNetwork (addNetwork State.empty livenetData).2 testnetData ∈
      (addNetwork (addNetwork State.empty livenetData).2 testnetData).2.networks ∧
    isScalar ((newNetwork (addNetwork State.empty livenetData).2 testnetData).prop .port) =
      true ∧
    (newNetwork (addNetwork State.empty livenetData).2 testnetData).prop .port ≠
      .num .nan ∧
    get (addNetwork (addNetwork State.empty livenetData).2 testnetData).2
      ((newNetwork (addNetwork State.empty livenetData).2 testnetData).prop .port) .absent =
      .network (newNetwork (addNetwork State.empty livenetData).2 testnetData) ∧
    get (addNetwork (addNetwork State.empty livenetData).2 testnetData).2
      ((newNetwork (addNetwork State.empty livenetData).2 testnetData).prop .port)
      (.single .port) =
      .network (newNetwork (addNetwork State.empty livenetData).2 testnetData) :=
  ⟨Built.add_returns testnetData (Built.add_returns livenetData Built.empty (by decide))
      (by decide),
    by unfold UniqueKeys; decide, by decide, by decide, by decide,
    (lookup_modes_agree.1 (addNetwork (addNetwork State.empty livenetData).2 testnetData).2
      (Built.add_returns testnetData (Built.add_returns livenetData Built.empty (by decide))
        (by decide))
      (by unfold UniqueKeys; decide)
      (newNetwork (addNetwork State.empty livenetData).2 testnetData) (by decide) .port
      (by decide)).1,
    (lookup_modes_agree.1 (addNetwork (addNetwork State.empty livenetData).2 testnetData).2
      (Built.add_returns testnetData (Built.add_returns livenetData Built.empty (by decide))
        (by decide))
      (by unfold UniqueKeys; decide)
      (newNetwork (addNetwork State.empty livenetData).2 testnetData) (by decide) .port
      (by decide)).2 (by decide)⟩

/-- C19, as stated, fails for the integer `10^21`, which JavaScript prints as
`1e+21`: once a network with the name `'1000000000000000000000'`, the decimal
numeral of `10^21`, is registered on the initial registry, `get` of that string
returns it, while `get` of the number `10^21` reads the key `1e+21` and returns
`undefined`. -/
theorem big_number_key :
    (addNetwork State.initial bigNameData).1 = .ok (newNetwork State.initial bigNameData) ∧
    (newNetwork State.initial bigNameData).name = some "1000000000000000000000" ∧
    toPropertyKey (.num (.other "1e+21")) = "1e+21" ∧
    get (addNetwork State.initial bigNameData).2 (.num (.other "1e+21")) .absent =
      .undefined ∧
    get (addNetwork State.initial bigNameData).2 (.str "1000000000000000000000") .absent =
      .network (newNetwork State.initial bigNameData) := by
  decide

/-- C19, amended. The unrestricted index keys numbers and strings alike as far
as JavaScript prints the number in decimal: for every state and every integer
`n` with `0 ≤ n < 2^53`, the unrestricted `get(n)` is `get(s)` for the decimal
numeral `s` of `n`. A descriptor registered with the name `'9000'` and one
registered with the port `9000` share one entry, and the later registration
holds it. The restricted lookup compares with `===`: on the initial registry
`get('8333', 'port')` is `undefined`, while `get('8333')` is livenet. -/
theorem number_and_string_keys :
    (∀ (s : State) (n : Nat) (safe : (n : Int).natAbs < 2 ^ 53),
      get s (.int n safe) .absent = get s (.str (Nat.toDigits 10 n).asString) .absent) ∧
    (∀ (s : State) (data1 data2 : Data) (d1 d2 : Network),
      data1.name = some "9000" → data2.port = numeral 9000 (by decide) →
      (addNetwork s data1).1 = .ok d1 → (addNetwork (addNetwork s data1).2 data2).1 = .ok d2 →
      get (addNetwork (addNetwork s data1).2 data2).2 (.str "9000") .absent = .network d2 ∧
      get (addNetwork (addNetwork s data1).2 data2).2 (.int 9000 (by decide)) .absent =
        .network d2) ∧
    (∀ (s : State) (data1 data2 : Data) (d1 d2 : Network),
      data1.name = some "9000" → data2.port = numeral 9000 (by decide) →
      (addNetwork s data2).1 = .ok d2 → (addNetwork (addNetwork s data2).2 data1).1 = .ok d1 →
      get (addNetwork (addNetwork s data2).2 data1).2 (.str "9000") .absent = .network d1 ∧
      get (addNetwork (addNetwork s data2).2 data1).2 (.int 9000 (by decide)) .absent =
        .network d1) ∧
    get State.initial (.str "8333") (.single .port) = .undefined ∧
    get State.initial (.str "8333") .absent = .network livenetNetwork := by
  have hkey : toPropertyKey (.str "9000") = toPropertyKey (.int 9000 (by decide)) := by
    decide
  have hstr : ∀ (t : State) (e : Network),
      get t (.int 9000 (by decide)) .absent = .network e →
      get t (.str "9000") .absent = .network e := by
    intro t e h
    rw [get_absent t (.int 9000 (by decide)) (isRegistered_of_isScalar t _ rfl)] at h
    rw [get_absent t (.str "9000") (isRegistered_of_isScalar t _ rfl), hkey]
    exact h
  have hnum : ∀ (t : State) (e : Network),
      get t (.str "9000") .absent = .network e →
      get t (.int 9000 (by decide)) .absent = .network e := by
    intro t e h
    rw [get_absent t (.str "9000") (isRegistered_of_isScalar t _ rfl)] at h
    rw [get_absent t (.int 9000 (by decide)) (isRegistered_of_isScalar t _ rfl), ← hkey]
    exact h
  have hport : ∀ (t : State) (data2 : Data) (d2 : Network),
      data2.port = numeral 9000 (by decide) → (addNetwork t data2).1 = .ok d2 →
      Value.int 9000 (by decide) ∈ d2.scalars := by
    intro t data2 d2 h2 hr
    refine (mem_scalars _ _).2 ⟨rfl, .port, ?_⟩
    rw [(addNetwork_ok hr).1]
    show ofNumber data2.port = _
    rw [h2]
    rfl
  have hname : ∀ (t : State) (data1 : Data) (d1 : Network),
      data1.name = some "9000" → (addNetwork t data1).1 = .ok d1 →
      Value.str "9000" ∈ d1.scalars := by
    intro t data1 d1 h1 hr
    refine (mem_scalars _ _).2 ⟨rfl, .name, ?_⟩
    rw [(addNetwork_ok hr).1]
    show ofString data1.name = _
    rw [h1]
    rfl
  refine ⟨?_, ?_, ?_, by decide, by decide⟩
  · intro s n safe
    have h1 : isRegistered s (.int n safe) = false := isRegistered_of_isScalar s _ rfl
    have h2 : isRegistered s (.str (Nat.toDigits 10 n).asString) = false :=
      isRegistered_of_isScalar s _ rfl
    rw [get_absent s _ h1, get_absent s _ h2]
    rfl
  · intro s data1 data2 d1 d2 h1 h2 _ hr2
    have ha := get_addNetwork_scalar hr2 _ (hport _ data2 d2 h2 hr2)
    exact ⟨hstr _ _ ha, ha⟩
  · intro s data1 data2 d1 d2 h1 h2 _ hr1
    have hb := get_addNetwork_scalar hr1 _ (hname _ data1 d1 h1 hr1)
    exact ⟨hb, hnum _ _ hb⟩

/-- C19, amended, on the initial registry: the number `8333` and its numeral,
and a network named `'9000'`, then testcoin with the port `9000`. -/
theorem number_and_string_keys_witness :
    get State.initial (.int 8333 (by decide)) .absent =
      get State.initial (.str (Nat.toDigits 10 8333).asString) .absent ∧
    name9000Data.name = some "9000" ∧ testcoinData.port = numeral 9000 (by decide) ∧
    (addNetwork State.initial name9000Data).1 = .ok (newNetwork State.initial name9000Data) ∧
    (addNetwork (addNetwork State.initial name9000Data).2 testcoinData).1 =
      .ok (newNetwork (addNetwork State.initial name9000Data).2 testcoinData) ∧
    get (addNetwork (addNetwork State.initial name9000Data).2 testcoinData).2
      (.str "9000") .absent =
      .network (newNetwork (addNetwork State.initial name9000Data).2 testcoinData) ∧
    get (addNetwork (addNetwork State.initial name9000Data).2 testcoinData).2
      (.int 9000 (by decide)) .absent =
      .network (newNetwork (addNetwork State.initial name9000Data).2 testcoinData) :=
  ⟨number_and_string_keys.1 State.initial 8333 (by decide), rfl, rfl, by decide, by decide,
    (number_and_string_keys.2.1 State.initial name9000Data testcoinData
      (newNetwork State.initial name9000Data)
      (newNetwork (addNetwork State.initial name9000Data).2 testcoinData) rfl rfl
      (by decide) (by decide)).1,
    (number_and_string_keys.2.1 State.initial name9000Data testcoinData
      (newNetwork State.initial name9000Data)
      (newNetwork (addNetwork State.initial name9000Data).2 testcoinData) rfl rfl
      (by decide) (by decide)).2⟩

end Networks
